import Mathlib

/-!
# A verification development for the Terablu bytecode interpreter

This file shallowly embeds the core of the Terablu interpreter (a clox-style
single-pass compiler plus stack VM with mark-sweep GC, written in C) and proves
or refutes a list of specification claims about it.

Conventions of the embedding:
* Machine bytes are `Nat` values; the emitters write masked bytes (≤ 255).
* C `double` payloads are modeled as `Rat`.  Every property settled here
  depends only on which code path runs (number-ness checks, error paths,
  stack shapes), never on IEEE-754 rounding, so this abstraction is exact
  for the claims at hand.
* Heap pointers are indices (`Nat`) into an explicit heap list; pointer
  equality becomes index equality (strings are interned, so this also
  models string-key identity in tables).
* Paths that are C undefined behaviour (type-confused heap accesses,
  reads past the end of the bytecode) are mapped to a `stuck` outcome;
  no claim exercises them.
* Runtime/compile error messages are represented by an enumeration whose
  constructor names transcribe the C format strings.
-/

namespace Terablu

/-! ## Opcodes (src/chunk.h, enum OpCode, in declaration order) -/

def OP_CONSTANT : Nat := 0
def OP_NIL : Nat := 1
def OP_TRUE : Nat := 2
def OP_FALSE : Nat := 3
def OP_POP : Nat := 4
def OP_GET_LOCAL : Nat := 5
def OP_SET_LOCAL : Nat := 6
def OP_GET_GLOBAL : Nat := 7
def OP_DEFINE_GLOBAL : Nat := 8
def OP_SET_GLOBAL : Nat := 9
def OP_GET_UPVALUE : Nat := 10
def OP_SET_UPVALUE : Nat := 11
def OP_GET_PROPERTY : Nat := 12
def OP_SET_PROPERTY : Nat := 13
def OP_GET_SUPER : Nat := 14
def OP_DUP : Nat := 15
def OP_EQUAL : Nat := 16
def OP_GREATER : Nat := 17
def OP_LESS : Nat := 18
def OP_ADD : Nat := 19
def OP_SUBTRACT : Nat := 20
def OP_MULTIPLY : Nat := 21
def OP_DIVIDE : Nat := 22
def OP_NOT : Nat := 23
def OP_NEGATE : Nat := 24
def OP_PRINT : Nat := 25
def OP_JUMP : Nat := 26
def OP_JUMP_IF_FALSE : Nat := 27
def OP_LOOP : Nat := 28
def OP_CALL : Nat := 29
def OP_INVOKE : Nat := 30
def OP_SUPER_INVOKE : Nat := 31
def OP_CLOSURE : Nat := 32
def OP_CLOSE_UPVALUE : Nat := 33
def OP_MODULUS : Nat := 34
def OP_CONSTANT_LONG : Nat := 35
def OP_RETURN : Nat := 36
def OP_CONDITIONAL : Nat := 37
def OP_CLASS : Nat := 38
def OP_INHERIT : Nat := 39
def OP_METHOD : Nat := 40

/-! ## Values (src/value.h, tagged-union build) -/

/-- A dynamic value: `VAL_NIL`, `VAL_BOOL`, `VAL_NUMBER` (double, modeled as
`Rat`) or `VAL_OBJ` (a heap reference, modeled as an index). -/
inductive Value where
  | nil
  | bool (b : Bool)
  | num (x : Rat)
  | obj (r : Nat)
deriving Repr, DecidableEq

/-- src/value.c `valuesEqual` (tagged-union build): same tag and componentwise
equal; objects compare by identity (interning makes this content equality for
strings). -/
def valuesEqual : Value → Value → Bool
  | .bool a, .bool b => a == b
  | .nil, .nil => true
  | .num a, .num b => a == b
  | .obj a, .obj b => a == b
  | _, _ => false

/-- src/vm.c `isFalsey`: nil and false are falsey, everything else is truthy. -/
def isFalsey : Value → Bool
  | .nil => true
  | .bool b => !b
  | _ => false

/-! ## Chunks (src/chunk.h / src/chunk.c) -/

/-- A `LineStart` run: byte offset where a source line begins (src/chunk.h). -/
structure LineStart where
  offset : Nat
  line : Nat
deriving Repr, DecidableEq

/-- src/chunk.h `Chunk`: bytecode, run-length line info, constant pool.
Counts/capacities of the C dynamic arrays are the list lengths. -/
structure Chunk where
  code : List Nat
  lines : List LineStart
  constants : List Value
deriving Repr, DecidableEq

/-- src/chunk.c `writeChunk`: append one byte; append a new `LineStart` only
when the line differs from the last run. -/
def writeChunk (ch : Chunk) (byte : Nat) (line : Nat) : Chunk :=
  let ch := { ch with code := ch.code ++ [byte] }
  match ch.lines.getLast? with
  | some ls =>
      if ls.line = line then ch
      else { ch with lines := ch.lines ++ [⟨ch.code.length - 1, line⟩] }
  | none => { ch with lines := ch.lines ++ [⟨ch.code.length - 1, line⟩] }

/-- src/chunk.c `addConstant`: append to the pool, return the new index. -/
def addConstant (ch : Chunk) (v : Value) : Chunk × Nat :=
  ({ ch with constants := ch.constants ++ [v] }, ch.constants.length)

/-- src/chunk.c `writeConstant`: indices below 256 use `OP_CONSTANT` with a
one-byte operand; larger indices use `OP_CONSTANT_LONG` with three operand
bytes written lower byte first (little-endian 24-bit). -/
def writeConstant (ch : Chunk) (v : Value) (line : Nat) : Chunk :=
  let (ch, constant) := addConstant ch v
  if constant < 256 then
    writeChunk (writeChunk ch OP_CONSTANT line) constant line
  else
    let ch := writeChunk ch OP_CONSTANT_LONG line
    let ch := writeChunk ch (constant &&& 0xFF) line
    let ch := writeChunk ch ((constant >>> 8) &&& 0xFF) line
    writeChunk ch ((constant >>> 16) &&& 0xFF) line

/-- src/vm.c `READ_CONSTANT_LONG` operand decode, with the three `READ_BYTE()`
calls taken in textual (left-to-right) order: the FIRST operand byte lands in
bits 16..23 — a big-endian read. -/
def readConstantLongIndex (b1 b2 b3 : Nat) : Nat :=
  (b1 <<< 16) ||| (b2 <<< 8) ||| b3

/-- src/debug.c `longConstantInstruction` operand decode: the first operand
byte is the LOW byte — a little-endian read, agreeing with `writeConstant`
and disagreeing with the VM's `READ_CONSTANT_LONG`. -/
def debugLongConstantIndex (b1 b2 b3 : Nat) : Nat :=
  b1 ||| (b2 <<< 8) ||| (b3 <<< 16)

/-! ## The hash table (src/table.c)

Keys are interned strings compared by pointer identity; a key is modeled as an
index into a string heap carrying content and stored hash. -/

/-- The fields of `ObjString` that src/table.c reads: content and stored hash. -/
structure StrObj where
  chars : String
  hash : Nat
deriving Repr, DecidableEq

/-- src/table.h `Entry`: key is NULL (`none`) for empty slots and tombstones;
a tombstone has value `Bool(true)`. -/
structure Entry where
  key : Option Nat
  value : Value
deriving Repr, DecidableEq

/-- src/table.h `Table`. `count` counts used slots including tombstones. -/
structure Table where
  count : Nat
  capacity : Nat
  entries : List Entry
deriving Repr, DecidableEq

/-- src/table.c `initTable`. -/
def initTable : Table := ⟨0, 0, []⟩

/-- src/memory.h `GROW_CAPACITY`: below 8 grow to 8, else double. -/
def growCapacity (c : Nat) : Nat := if c < 8 then 8 else 2 * c

/-- src/table.c `findEntry` probe loop. `index` is masked by `capacity - 1`
each round; `tombstone` remembers the first tombstone seen.  The C loop
terminates by the load-factor invariant (some truly-empty slot exists); the
embedding carries explicit fuel and returns `none` on exhaustion, a case no
reachable table hits. Returns the index of the chosen entry. -/
def findEntryLoop (entries : List Entry) (capacity : Nat) (keyRef : Nat) :
    Nat → Nat → Option Nat → Option Nat
  | 0, _, _ => none
  | fuel + 1, index, tombstone =>
      match entries.get? index with
      | none => none
      | some e =>
          match e.key with
          | none =>
              if e.value = Value.nil then
                -- empty entry
                some (tombstone.getD index)
              else
                -- tombstone
                findEntryLoop entries capacity keyRef fuel
                  ((index + 1) &&& (capacity - 1))
                  (some (tombstone.getD index))
          | some k =>
              if k = keyRef then some index
              else
                findEntryLoop entries capacity keyRef fuel
                  ((index + 1) &&& (capacity - 1)) tombstone

/-- src/table.c `findEntry`: start probing at `hash & (capacity - 1)`. -/
def findEntry (strs : List StrObj) (entries : List Entry) (capacity : Nat)
    (keyRef : Nat) : Option Nat :=
  match strs.get? keyRef with
  | none => none
  | some s => findEntryLoop entries capacity keyRef (capacity + 1)
      (s.hash &&& (capacity - 1)) none

/-- src/table.c `tableGet`: a zero count returns false at once; otherwise
probe and return the value unless the found slot has no key. -/
def tableGet (strs : List StrObj) (t : Table) (keyRef : Nat) : Option Value :=
  if t.count = 0 then none
  else
    match findEntry strs t.entries t.capacity keyRef with
    | none => none
    | some i =>
        match t.entries.get? i with
        | none => none
        | some e => match e.key with
            | none => none
            | some _ => some e.value

/-- src/table.c `tableDelete`: a zero count returns false at once; otherwise
place a tombstone (`key = NULL`, `value = Bool(true)`) in the found slot.
Returns whether the key was found, paired with the updated table. -/
def tableDelete (strs : List StrObj) (t : Table) (keyRef : Nat) :
    Bool × Table :=
  if t.count = 0 then (false, t)
  else
    match findEntry strs t.entries t.capacity keyRef with
    | none => (false, t)
    | some i =>
        match t.entries.get? i with
        | none => (false, t)
        | some e =>
            match e.key with
            | none => (false, t)
            | some _ =>
                (true,
                 { t with entries := t.entries.set i ⟨none, .bool true⟩ })

/-- src/table.c `tableFindString` probe loop: stop at a truly-empty entry,
skip tombstones, compare stored length, hash, then content. -/
def tableFindStringLoop (strs : List StrObj) (entries : List Entry)
    (capacity : Nat) (chars : String) (hash : Nat) :
    Nat → Nat → Option Nat
  | 0, _ => none
  | fuel + 1, index =>
      match entries.get? index with
      | none => none
      | some e =>
          match e.key with
          | none =>
              if e.value = Value.nil then none
              else tableFindStringLoop strs entries capacity chars hash fuel
                ((index + 1) &&& (capacity - 1))
          | some k =>
              match strs.get? k with
              | none => none
              | some s =>
                  if s.chars.length = chars.length ∧ s.hash = hash ∧
                      s.chars = chars then
                    some k
                  else
                    tableFindStringLoop strs entries capacity chars hash fuel
                      ((index + 1) &&& (capacity - 1))

/-- src/table.c `tableFindString`: a zero count returns NULL at once. -/
def tableFindString (strs : List StrObj) (t : Table) (chars : String)
    (hash : Nat) : Option Nat :=
  if t.count = 0 then none
  else tableFindStringLoop strs t.entries t.capacity chars hash
    (t.capacity + 1) (hash &&& (t.capacity - 1))

/-- src/table.c `adjustCapacity`: fresh empty bucket array, re-insert every
keyed entry, recounting (tombstones are dropped). -/
def adjustCapacity (strs : List StrObj) (t : Table) (capacity : Nat) : Table :=
  let empty : List Entry := List.replicate capacity ⟨none, .nil⟩
  let step := fun (acc : List Entry × Nat) (e : Entry) =>
    match e.key with
    | none => acc
    | some k =>
        match findEntry strs acc.1 capacity k with
        | none => acc
        | some i => (acc.1.set i e, acc.2 + 1)
  let acc := t.entries.foldl step (empty, 0)
  { count := acc.2, capacity := capacity, entries := acc.1 }

/-- The growth step at the head of src/table.c `tableSet`: grow when
`count + 1 > capacity * TABLE_MAX_LOAD` with `TABLE_MAX_LOAD = 0.75`.
Capacities are powers of two, so the C double comparison is exactly
`4 * (count + 1) > 3 * capacity`. -/
def tableSetGrown (strs : List StrObj) (t : Table) : Table :=
  if 4 * (t.count + 1) > 3 * t.capacity then
    adjustCapacity strs t (growCapacity t.capacity)
  else t

/-- src/table.c `tableSet`: maybe grow, probe, bump `count` only when filling
a truly-empty slot, store. Returns whether the key was new. -/
def tableSet (strs : List StrObj) (t : Table) (keyRef : Nat) (v : Value) :
    Bool × Table :=
  let t := tableSetGrown strs t
  match findEntry strs t.entries t.capacity keyRef with
  | none => (false, t)
  | some i =>
      match t.entries.get? i with
      | none => (false, t)
      | some e =>
          let isNewKey := e.key.isNone
          let count := if isNewKey ∧ e.value = Value.nil then t.count + 1
            else t.count
          (isNewKey,
           { t with count := count, entries := t.entries.set i ⟨some keyRef, v⟩ })

/-! ## Heap objects and the VM state (src/object.h, src/vm.h)

Heap pointers are indices into `VmState.heap`; the intrusive GC allocation
list and mark bits live in the separate GC model further below. -/

/-- The two native functions registered by `initVM` (src/vm.c). -/
inductive NativeTag where
  | clockN
  | deleteFieldN
deriving Repr, DecidableEq

/-- src/object.h `ObjUpvalue`: `location` either points into the value stack
(open) or at the own `closed` field (closed).  While open, `closed` holds nil,
which only the GC observes. -/
inductive UpvalLoc where
  | stackSlot (i : Nat)
  | closedVal (v : Value)
deriving Repr, DecidableEq

/-- src/object.h object variants.  Method/field tables are string-ref keyed;
they appear here as association lists (see `tgetList`).  The `next` intrusive
GC link is the allocation-list of the GC model below. -/
inductive HObj where
  | str (s : String)
  | function (arity : Nat) (upvalueCount : Nat) (chunk : Chunk) (name : Option Nat)
  | native (tag : NativeTag)
  | closure (fn : Nat) (upvalues : List Nat)
  | upvalue (loc : UpvalLoc)
  | cls (name : Nat) (initializer : Value) (methods : List (Nat × Value))
  | inst (klass : Nat) (fields : List (Nat × Value))
  | bound (receiver : Value) (method : Nat)
deriving Repr, DecidableEq

/-! Runtime string-keyed tables (globals, a class's methods, an instance's
fields) are hash tables in C, keyed by interned-string pointer identity; the
hash-table data structure itself is embedded from src/table.c above.  For the
VM semantics only the observable map behaviour matters, so these tables are
association lists keyed by string ref, with `tableSet`'s is-new-key result
and `tableDelete` reproduced. -/

/-- `tableGet` behaviour on a ref-keyed association list. -/
def tgetList (tbl : List (Nat × Value)) (k : Nat) : Option Value :=
  (tbl.find? (fun e => e.1 == k)).map Prod.snd

/-- `tableSet` behaviour: replace an existing key or append a new one;
returns the table and whether the key was new. -/
def tsetList (tbl : List (Nat × Value)) (k : Nat) (v : Value) :
    List (Nat × Value) × Bool :=
  if (tbl.find? (fun e => e.1 == k)).isSome then
    (tbl.map (fun e => if e.1 == k then (k, v) else e), false)
  else (tbl ++ [(k, v)], true)

/-- `tableDelete` behaviour: remove the key if present. -/
def tdelList (tbl : List (Nat × Value)) (k : Nat) : List (Nat × Value) :=
  tbl.filter (fun e => e.1 != k)

/-- src/vm.h `CallFrame`: closure ref, instruction pointer (an index into the
closure function's chunk code; a raw byte pointer in C), and the base index
of the frame's slot window in the value stack (a raw `Value*` in C). -/
structure CallFrame where
  closure : Nat
  ip : Nat
  slots : Nat
deriving Repr, DecidableEq

/-- src/vm.h `VM`, the parts the dispatch loop touches.  `frames` grows at the
tail (`frames[frameCount - 1]` is the last element); `stack` likewise holds
`stack[0 .. stackCount)` bottom first.  `strings` is the intern table as the
list of interned refs; `output` records what `OP_PRINT` wrote to stdout;
`clockSeconds` is the environment value the `clock` native returns. -/
structure VmState where
  heap : List HObj
  stack : List Value
  frames : List CallFrame
  globals : List (Nat × Value)
  openUpvalues : List Nat
  strings : List Nat
  initString : Nat
  output : List Value
  clockSeconds : Rat
deriving Repr, DecidableEq

/-- Runtime error messages, one constructor per `runtimeError` format string
in src/vm.c.  `moduloRequiresIntegerOperands` transcribes the message the
specification claims for `%`; no line of src/vm.c produces it. -/
inductive RtErr where
  | expectedArguments (expected actual : Nat)
  | stackOverflow
  | canOnlyCallFunctionsAndClasses
  | undefinedProperty (nameRef : Nat)
  | onlyInstancesHaveMethods
  | onlyInstancesHaveProperties
  | onlyInstancesHaveFields
  | undefinedVariable (nameRef : Nat)
  | operandsMustBeNumbers
  | operandsMustBeTwoNumbersOrTwoStrings
  | operandMustBeANumber
  | moduloRequiresIntegerOperands
deriving Repr, DecidableEq

/-- Outcome of one iteration of the src/vm.c `run` dispatch loop. -/
inductive StepResult where
  | ok (s : VmState)
  | finished (s : VmState)
  | rtError (e : RtErr) (s : VmState)
  | stuck (s : VmState)
deriving Repr, DecidableEq

/-- src/vm.c `runtimeError` + `resetStack`: report the error and clear the
value stack, the frame stack, and the open-upvalue list (heap and globals
survive for the next `interpret`). -/
def rtFail (e : RtErr) (s : VmState) : StepResult :=
  .rtError e { s with stack := [], frames := [], openUpvalues := [] }

def VmState.push (s : VmState) (v : Value) : VmState :=
  { s with stack := s.stack ++ [v] }

/-- src/vm.c `peek`: `vm.stack[vm.stackCount - 1 - distance]`. -/
def VmState.peek (s : VmState) (distance : Nat) : Option Value :=
  s.stack.get? (s.stack.length - 1 - distance)

/-- Write back the current frame's instruction pointer.  In C `READ_BYTE`
mutates `frame->ip` in place inside `vm.frames`; here the advanced ip is
installed in the last frame before any helper can push or drop frames. -/
def setIp (s : VmState) (fr : CallFrame) (ip : Nat) : VmState :=
  { s with frames := s.frames.dropLast ++ [{ fr with ip := ip }] }

def isStringV (s : VmState) (v : Value) : Bool :=
  match v with
  | .obj r => match s.heap.get? r with
      | some (.str _) => true
      | _ => false
  | _ => false

def isNumberV : Value → Bool
  | .num _ => true
  | _ => false

/-- Decode operand byte `b` as `READ_STRING()` does: the constant at index `b`
must be an `ObjString` reference. -/
def readStringConst (heap : List HObj) (constants : List Value) (b : Nat) :
    Option Nat :=
  match constants.get? b with
  | some (.obj r) =>
      match heap.get? r with
      | some (.str _) => some r
      | _ => none
  | _ => none

/-- src/vm.c `call`: arity check, frame-stack bound (`FRAMES_MAX = 64`), then
push a frame whose slot base points at the callee slot. -/
def callClosure (s : VmState) (closureRef : Nat) (argCount : Nat) : StepResult :=
  match s.heap.get? closureRef with
  | some (.closure fnRef _) =>
      match s.heap.get? fnRef with
      | some (.function arity _ _ _) =>
          if argCount ≠ arity then rtFail (.expectedArguments arity argCount) s
          else if s.frames.length = 64 then rtFail .stackOverflow s
          else .ok { s with
            frames := s.frames ++ [⟨closureRef, 0, s.stack.length - argCount - 1⟩] }
      | _ => .stuck s
  | _ => .stuck s

/-- Modelled from the spec: `newInstance` lives in object.c, which is not under
src/.  §3: an Instance holds its class ref and an initially empty fields map. -/
def newInstanceObj (klass : Nat) : HObj := .inst klass []

/-- Modelled from the spec: `newClass` lives in object.c, which is not under
src/.  §3: a Class holds its name, an empty methods map, and a cached
initializer Value that is Nil if none (src/vm.c tests `IS_NIL`). -/
def newClassObj (nameRef : Nat) : HObj := .cls nameRef .nil []

/-- src/vm.c `clockNative` / `deleteFieldNative`.  `clock` returns the
seconds-since-start environment value; `deleteField` silently returns nil on
any misuse, else removes the named field. -/
def runNative (s : VmState) (tag : NativeTag) (argCount : Nat)
    (args : List Value) : VmState × Value :=
  match tag with
  | .clockN => (s, .num s.clockSeconds)
  | .deleteFieldN =>
      if argCount ≠ 2 then (s, .nil)
      else
        match args.get? 0, args.get? 1 with
        | some (.obj ir), some (.obj sr) =>
            match s.heap.get? ir, s.heap.get? sr with
            | some (.inst k fields), some (.str _) =>
                ({ s with heap := s.heap.set ir (.inst k (tdelList fields sr)) },
                 .nil)
            | _, _ => (s, .nil)
        | _, _ => (s, .nil)

/-- src/vm.c `callValue`: dispatch on the callee's object type; bound methods
install their receiver in slot 0, classes allocate the instance into slot 0
and run the cached initializer (or demand zero args), natives consume
`argCount + 1` stack slots and push their result; anything else errors. -/
def callValue (s : VmState) (callee : Value) (argCount : Nat) : StepResult :=
  match callee with
  | .obj r =>
      match s.heap.get? r with
      | some (.bound receiver method) =>
          let i := s.stack.length - argCount - 1
          callClosure { s with stack := s.stack.set i receiver } method argCount
      | some (.cls _ initializer _) =>
          let i := s.stack.length - argCount - 1
          let instRef := s.heap.length
          let s := { s with heap := s.heap ++ [newInstanceObj r],
                            stack := s.stack.set i (.obj instRef) }
          match initializer with
          | .nil =>
              if argCount ≠ 0 then rtFail (.expectedArguments 0 argCount) s
              else .ok s
          | .obj cref => callClosure s cref argCount
          | _ => .stuck s
      | some (.closure _ _) => callClosure s r argCount
      | some (.native tag) =>
          let args := s.stack.drop (s.stack.length - argCount)
          let (s, result) := runNative s tag argCount args
          .ok { s with
            stack := s.stack.take (s.stack.length - (argCount + 1)) ++ [result] }
      | some _ => rtFail .canOnlyCallFunctionsAndClasses s
      | none => .stuck s
  | _ => rtFail .canOnlyCallFunctionsAndClasses s

/-- src/vm.c `invokeFromClass`: look the method up in the class's table, error
with "Undefined property" if absent, else `call` its closure. -/
def invokeFromClass (s : VmState) (klassRef nameRef argCount : Nat) : StepResult :=
  match s.heap.get? klassRef with
  | some (.cls _ _ methods) =>
      match tgetList methods nameRef with
      | none => rtFail (.undefinedProperty nameRef) s
      | some (.obj cref) => callClosure s cref argCount
      | some _ => .stuck s
  | _ => .stuck s

/-- src/vm.c `invoke`: the receiver sits `argCount` slots below the top; a
field with the called name shadows methods and is `callValue`d after being
written into slot 0. -/
def invoke (s : VmState) (nameRef argCount : Nat) : StepResult :=
  match s.peek argCount with
  | none => .stuck s
  | some (.obj ir) =>
      match s.heap.get? ir with
      | some (.inst klass fields) =>
          match tgetList fields nameRef with
          | some v =>
              let i := s.stack.length - argCount - 1
              callValue { s with stack := s.stack.set i v } v argCount
          | none => invokeFromClass s klass nameRef argCount
      | some _ => rtFail .onlyInstancesHaveMethods s
      | none => .stuck s
  | some _ => rtFail .onlyInstancesHaveMethods s

/-- src/vm.c `bindMethod`: look up the method, error if absent, else allocate
an `ObjBoundMethod` over the receiver on top of the stack and replace the
receiver with it. -/
def bindMethod (s : VmState) (klassRef nameRef : Nat) : StepResult :=
  match s.heap.get? klassRef with
  | some (.cls _ _ methods) =>
      match tgetList methods nameRef with
      | none => rtFail (.undefinedProperty nameRef) s
      | some (.obj cref) =>
          match s.peek 0 with
          | some recv =>
              let boundRef := s.heap.length
              .ok { s with heap := s.heap ++ [.bound recv cref],
                           stack := s.stack.dropLast ++ [.obj boundRef] }
          | none => .stuck s
      | some _ => .stuck s
  | _ => .stuck s

/-- The walk in src/vm.c `captureUpvalue`: skip entries whose referenced slot
is above `slot`; answer `.inl r` if an open upvalue for `slot` exists, else
`.inr (front, rest)` with the new upvalue to be inserted between.  `acc`
accumulates the walked prefix in reverse. -/
def captureWalk (heap : List HObj) (slot : Nat) :
    List Nat → List Nat → Option (Nat ⊕ (List Nat × List Nat))
  | acc, [] => some (.inr (acc.reverse, []))
  | acc, r :: rest =>
      match heap.get? r with
      | some (.upvalue (.stackSlot i)) =>
          if i > slot then captureWalk heap slot (r :: acc) rest
          else if i = slot then some (.inl r)
          else some (.inr (acc.reverse, r :: rest))
      | _ => none

/-- src/vm.c `captureUpvalue`: reuse the open upvalue for `slot` when one
exists, else allocate one (`newUpvalue`, whose shape §3 fixes: open, pointing
at the slot) and link it into the descending open list. -/
def captureUpvalue (s : VmState) (slot : Nat) : Option (Nat × VmState) :=
  match captureWalk s.heap slot [] s.openUpvalues with
  | none => none
  | some (.inl r) => some (r, s)
  | some (.inr (front, rest)) =>
      let newRef := s.heap.length
      some (newRef, { s with heap := s.heap ++ [.upvalue (.stackSlot slot)],
                             openUpvalues := front ++ newRef :: rest })

/-- src/vm.c `closeUpvalues(last)` loop: while the head of the open list
references a slot at or above `last`, copy that slot's value into the upvalue
(`closed = *location; location = &closed`) and unlink it. -/
def closeUpvaluesLoop (stack : List Value) (last : Nat) :
    List HObj → List Nat → Option (List HObj × List Nat)
  | heap, [] => some (heap, [])
  | heap, r :: rest =>
      match heap.get? r with
      | some (.upvalue (.stackSlot i)) =>
          if last ≤ i then
            match stack.get? i with
            | none => none
            | some v =>
                closeUpvaluesLoop stack last
                  (heap.set r (.upvalue (.closedVal v))) rest
          else some (heap, r :: rest)
      | _ => none

/-- src/vm.c `concatenate` together with the interning `takeString` (the
latter modelled from the spec, §4.7, since object.c is not under src/):
concatenating two strings produces the canonical interned string for the
joined content, popping both operands and pushing the result. -/
def concatenate (s : VmState) : Option VmState :=
  match s.peek 0, s.peek 1 with
  | some (.obj rb), some (.obj ra) =>
      match s.heap.get? ra, s.heap.get? rb with
      | some (.str a), some (.str b) =>
          let joined := a ++ b
          match s.strings.find? (fun r =>
              match s.heap.get? r with
              | some (.str c) => c == joined
              | _ => false) with
          | some r =>
              some { s with stack := s.stack.dropLast.dropLast ++ [.obj r] }
          | none =>
              let r := s.heap.length
              some { s with heap := s.heap ++ [.str joined],
                            strings := s.strings ++ [r],
                            stack := s.stack.dropLast.dropLast ++ [.obj r] }
      | _, _ => none
  | _, _ => none

/-- src/vm.c `defineMethod`: the method closure is on top, the class below it;
store the method in the class's table, and when the name is the interned
`init` string also cache it as the class's initializer; pop the method. -/
def defineMethod (s : VmState) (nameRef : Nat) : Option VmState :=
  match s.peek 0, s.peek 1 with
  | some method, some (.obj kr) =>
      match s.heap.get? kr with
      | some (.cls n initv methods) =>
          let methods := (tsetList methods nameRef method).1
          let initv := if nameRef = s.initString then method else initv
          some { s with heap := s.heap.set kr (.cls n initv methods),
                        stack := s.stack.dropLast }
      | _ => none
  | _, _ => none

/-- The upvalue-descriptor loop in the `OP_CLOSURE` case of src/vm.c `run`:
read `(isLocal, index)` byte pairs; a local descriptor captures
`frame->slots + index`, a non-local one reuses the enclosing closure's
upvalue at `index`. -/
def closureCaptureLoop (code : List Nat) (slotsBase : Nat)
    (enclosing : List Nat) :
    Nat → Nat → VmState → List Nat → Option (VmState × List Nat × Nat)
  | 0, ip, s, acc => some (s, acc, ip)
  | n + 1, ip, s, acc =>
      match code.get? ip, code.get? (ip + 1) with
      | some isLocal, some index =>
          if isLocal ≠ 0 then
            match captureUpvalue s (slotsBase + index) with
            | none => none
            | some (r, s') =>
                closureCaptureLoop code slotsBase enclosing n (ip + 2) s'
                  (acc ++ [r])
          else
            match enclosing.get? index with
            | none => none
            | some r =>
                closureCaptureLoop code slotsBase enclosing n (ip + 2) s
                  (acc ++ [r])
      | _, _ => none

/-- One case of the dispatch switch in src/vm.c `run` (lines 357..562).
`fr` is the current (last) frame, `ch` the chunk of its closure's function,
`upvals` the closure's upvalue array, `op` the byte fetched by the switch's
`READ_BYTE()` — so the operand stream starts at `fr.ip + 1`.  Because
`READ_BYTE` advances `frame->ip` inside `vm.frames`, every case first
installs the advanced ip and then performs its effect.

The C switch has NO case for `OP_GET_SUPER` (14), `OP_SUPER_INVOKE` (31),
`OP_MODULUS` (34), `OP_CONDITIONAL` (37) and `OP_INHERIT` (39), and no
`default` label: those bytes (and any byte ≥ 41) fall to the end of the
switch and the loop refetches at the following byte — the catch-all arm. -/
def execOp (s : VmState) (fr : CallFrame) (ch : Chunk) (upvals : List Nat)
    (op : Nat) : StepResult :=
  let ip1 := fr.ip + 1
  match op with
  | 0 => -- OP_CONSTANT
      match ch.code.get? ip1 with
      | none => .stuck s
      | some b =>
          match ch.constants.get? b with
          | none => .stuck s
          | some v => .ok ((setIp s fr (ip1 + 1)).push v)
  | 35 => -- OP_CONSTANT_LONG
      match ch.code.get? ip1, ch.code.get? (ip1 + 1), ch.code.get? (ip1 + 2) with
      | some b1, some b2, some b3 =>
          match ch.constants.get? (readConstantLongIndex b1 b2 b3) with
          | none => .stuck s
          | some v => .ok ((setIp s fr (ip1 + 3)).push v)
      | _, _, _ => .stuck s
  | 1 => .ok ((setIp s fr ip1).push .nil)           -- OP_NIL
  | 2 => .ok ((setIp s fr ip1).push (.bool true))   -- OP_TRUE
  | 3 => .ok ((setIp s fr ip1).push (.bool false))  -- OP_FALSE
  | 4 => -- OP_POP
      match s.stack.getLast? with
      | none => .stuck s
      | some _ =>
          let s := setIp s fr ip1
          .ok { s with stack := s.stack.dropLast }
  | 5 => -- OP_GET_LOCAL
      match ch.code.get? ip1 with
      | none => .stuck s
      | some slot =>
          match s.stack.get? (fr.slots + slot) with
          | none => .stuck s
          | some v => .ok ((setIp s fr (ip1 + 1)).push v)
  | 6 => -- OP_SET_LOCAL (peeks; does not pop)
      match ch.code.get? ip1, s.peek 0 with
      | some slot, some v =>
          if fr.slots + slot < s.stack.length then
            let s := setIp s fr (ip1 + 1)
            .ok { s with stack := s.stack.set (fr.slots + slot) v }
          else .stuck s
      | _, _ => .stuck s
  | 7 => -- OP_GET_GLOBAL
      match ch.code.get? ip1 with
      | none => .stuck s
      | some b =>
          match readStringConst s.heap ch.constants b with
          | none => .stuck s
          | some nameRef =>
              match tgetList s.globals nameRef with
              | none => rtFail (.undefinedVariable nameRef) (setIp s fr (ip1 + 1))
              | some v => .ok ((setIp s fr (ip1 + 1)).push v)
  | 8 => -- OP_DEFINE_GLOBAL
      match ch.code.get? ip1 with
      | none => .stuck s
      | some b =>
          match readStringConst s.heap ch.constants b, s.peek 0 with
          | some nameRef, some v =>
              let s := setIp s fr (ip1 + 1)
              .ok { s with globals := (tsetList s.globals nameRef v).1,
                           stack := s.stack.dropLast }
          | _, _ => .stuck s
  | 9 => -- OP_SET_GLOBAL (peeks; on a new key, delete it again and error)
      match ch.code.get? ip1 with
      | none => .stuck s
      | some b =>
          match readStringConst s.heap ch.constants b, s.peek 0 with
          | some nameRef, some v =>
              let (g, isNew) := tsetList s.globals nameRef v
              if isNew then
                rtFail (.undefinedVariable nameRef)
                  (setIp { s with globals := tdelList g nameRef } fr (ip1 + 1))
              else .ok (setIp { s with globals := g } fr (ip1 + 1))
          | _, _ => .stuck s
  | 10 => -- OP_GET_UPVALUE
      match ch.code.get? ip1 with
      | none => .stuck s
      | some slot =>
          match upvals.get? slot with
          | none => .stuck s
          | some r =>
              match s.heap.get? r with
              | some (.upvalue (.stackSlot i)) =>
                  match s.stack.get? i with
                  | none => .stuck s
                  | some v => .ok ((setIp s fr (ip1 + 1)).push v)
              | some (.upvalue (.closedVal v)) =>
                  .ok ((setIp s fr (ip1 + 1)).push v)
              | _ => .stuck s
  | 11 => -- OP_SET_UPVALUE (peeks; does not pop)
      match ch.code.get? ip1, s.peek 0 with
      | some slot, some v =>
          match upvals.get? slot with
          | none => .stuck s
          | some r =>
              match s.heap.get? r with
              | some (.upvalue (.stackSlot i)) =>
                  if i < s.stack.length then
                    let s := setIp s fr (ip1 + 1)
                    .ok { s with stack := s.stack.set i v }
                  else .stuck s
              | some (.upvalue (.closedVal _)) =>
                  let s := setIp s fr (ip1 + 1)
                  .ok { s with heap := s.heap.set r (.upvalue (.closedVal v)) }
              | _ => .stuck s
      | _, _ => .stuck s
  | 12 => -- OP_GET_PROPERTY
      match s.peek 0 with
      | none => .stuck s
      | some (.obj ir) =>
          match s.heap.get? ir with
          | some (.inst klass fields) =>
              match ch.code.get? ip1 with
              | none => .stuck s
              | some b =>
                  match readStringConst s.heap ch.constants b with
                  | none => .stuck s
                  | some nameRef =>
                      let s := setIp s fr (ip1 + 1)
                      match tgetList fields nameRef with
                      | some v =>
                          .ok { s with stack := s.stack.dropLast ++ [v] }
                      | none => bindMethod s klass nameRef
          | some _ => rtFail .onlyInstancesHaveProperties s
          | none => .stuck s
      | some _ => rtFail .onlyInstancesHaveProperties s
  | 13 => -- OP_SET_PROPERTY
      match s.peek 1 with
      | none => .stuck s
      | some (.obj ir) =>
          match s.heap.get? ir with
          | some (.inst klass fields) =>
              match ch.code.get? ip1, s.peek 0 with
              | some b, some v =>
                  match readStringConst s.heap ch.constants b with
                  | none => .stuck s
                  | some nameRef =>
                      let s := setIp s fr (ip1 + 1)
                      .ok { s with
                        heap := s.heap.set ir
                          (.inst klass (tsetList fields nameRef v).1),
                        stack := s.stack.dropLast.dropLast ++ [v] }
              | _, _ => .stuck s
          | some _ => rtFail .onlyInstancesHaveFields s
          | none => .stuck s
      | some _ => rtFail .onlyInstancesHaveFields s
  | 16 => -- OP_EQUAL
      match s.peek 0, s.peek 1 with
      | some b, some a =>
          let s := setIp s fr ip1
          .ok { s with stack :=
            s.stack.dropLast.dropLast ++ [.bool (valuesEqual a b)] }
      | _, _ => .stuck s
  | 17 => -- OP_GREATER (BINARY_OP)
      match s.peek 0, s.peek 1 with
      | some (.num b), some (.num a) =>
          let s := setIp s fr ip1
          .ok { s with stack :=
            s.stack.dropLast.dropLast ++ [.bool (decide (a > b))] }
      | some _, some _ => rtFail .operandsMustBeNumbers s
      | _, _ => .stuck s
  | 18 => -- OP_LESS (BINARY_OP)
      match s.peek 0, s.peek 1 with
      | some (.num b), some (.num a) =>
          let s := setIp s fr ip1
          .ok { s with stack :=
            s.stack.dropLast.dropLast ++ [.bool (decide (a < b))] }
      | some _, some _ => rtFail .operandsMustBeNumbers s
      | _, _ => .stuck s
  | 19 => -- OP_ADD: two strings concatenate, two numbers add, else error
      match s.peek 0, s.peek 1 with
      | some v0, some v1 =>
          if isStringV s v0 ∧ isStringV s v1 then
            match concatenate (setIp s fr ip1) with
            | none => .stuck s
            | some s' => .ok s'
          else if isNumberV v0 ∧ isNumberV v1 then
            match v0, v1 with
            | .num b, .num a =>
                let s := setIp s fr ip1
                .ok { s with stack :=
                  s.stack.dropLast.dropLast ++ [.num (a + b)] }
            | _, _ => .stuck s
          else rtFail .operandsMustBeTwoNumbersOrTwoStrings s
      | _, _ => .stuck s
  | 15 => -- OP_DUP
      match s.peek 0 with
      | none => .stuck s
      | some v => .ok ((setIp s fr ip1).push v)
  | 20 => -- OP_SUBTRACT (BINARY_OP)
      match s.peek 0, s.peek 1 with
      | some (.num b), some (.num a) =>
          let s := setIp s fr ip1
          .ok { s with stack := s.stack.dropLast.dropLast ++ [.num (a - b)] }
      | some _, some _ => rtFail .operandsMustBeNumbers s
      | _, _ => .stuck s
  | 21 => -- OP_MULTIPLY (BINARY_OP)
      match s.peek 0, s.peek 1 with
      | some (.num b), some (.num a) =>
          let s := setIp s fr ip1
          .ok { s with stack := s.stack.dropLast.dropLast ++ [.num (a * b)] }
      | some _, some _ => rtFail .operandsMustBeNumbers s
      | _, _ => .stuck s
  | 22 => -- OP_DIVIDE (BINARY_OP; no zero test anywhere on this path)
      match s.peek 0, s.peek 1 with
      | some (.num b), some (.num a) =>
          let s := setIp s fr ip1
          .ok { s with stack := s.stack.dropLast.dropLast ++ [.num (a / b)] }
      | some _, some _ => rtFail .operandsMustBeNumbers s
      | _, _ => .stuck s
  | 23 => -- OP_NOT
      match s.stack.getLast? with
      | none => .stuck s
      | some v =>
          let s := setIp s fr ip1
          .ok { s with stack := s.stack.dropLast ++ [.bool (isFalsey v)] }
  | 24 => -- OP_NEGATE
      match s.peek 0 with
      | none => .stuck s
      | some (.num a) =>
          let s := setIp s fr ip1
          .ok { s with stack := s.stack.dropLast ++ [.num (-a)] }
      | some _ => rtFail .operandMustBeANumber s
  | 25 => -- OP_PRINT
      match s.stack.getLast? with
      | none => .stuck s
      | some v =>
          let s := setIp s fr ip1
          .ok { s with stack := s.stack.dropLast, output := s.output ++ [v] }
  | 26 => -- OP_JUMP (16-bit big-endian operand)
      match ch.code.get? ip1, ch.code.get? (ip1 + 1) with
      | some b1, some b2 =>
          .ok (setIp s fr (ip1 + 2 + ((b1 <<< 8) ||| b2)))
      | _, _ => .stuck s
  | 27 => -- OP_JUMP_IF_FALSE (peeks; does not pop)
      match ch.code.get? ip1, ch.code.get? (ip1 + 1), s.peek 0 with
      | some b1, some b2, some v =>
          if isFalsey v then .ok (setIp s fr (ip1 + 2 + ((b1 <<< 8) ||| b2)))
          else .ok (setIp s fr (ip1 + 2))
      | _, _, _ => .stuck s
  | 28 => -- OP_LOOP (backward 16-bit big-endian operand)
      match ch.code.get? ip1, ch.code.get? (ip1 + 1) with
      | some b1, some b2 =>
          let off := (b1 <<< 8) ||| b2
          if off ≤ ip1 + 2 then .ok (setIp s fr (ip1 + 2 - off))
          else .stuck s
      | _, _ => .stuck s
  | 29 => -- OP_CALL
      match ch.code.get? ip1 with
      | none => .stuck s
      | some argCount =>
          let s := setIp s fr (ip1 + 1)
          match s.peek argCount with
          | none => .stuck s
          | some callee => callValue s callee argCount
  | 30 => -- OP_INVOKE
      match ch.code.get? ip1, ch.code.get? (ip1 + 1) with
      | some b, some argCount =>
          match readStringConst s.heap ch.constants b with
          | none => .stuck s
          | some nameRef => invoke (setIp s fr (ip1 + 2)) nameRef argCount
      | _, _ => .stuck s
  | 32 => -- OP_CLOSURE
      match ch.code.get? ip1 with
      | none => .stuck s
      | some b =>
          match ch.constants.get? b with
          | some (.obj fnRef) =>
              match s.heap.get? fnRef with
              | some (.function _ upvalueCount _ _) =>
                  let closureRef := s.heap.length
                  let s' := ({ s with
                    heap := s.heap ++ [.closure fnRef []] } : VmState).push
                      (.obj closureRef)
                  match closureCaptureLoop ch.code fr.slots upvals
                      upvalueCount (ip1 + 1) s' [] with
                  | none => .stuck s
                  | some (s'', uvs, ipEnd) =>
                      .ok (setIp { s'' with
                        heap := s''.heap.set closureRef (.closure fnRef uvs) }
                        fr ipEnd)
              | _ => .stuck s
          | _ => .stuck s
  | 33 => -- OP_CLOSE_UPVALUE
      match s.stack.getLast? with
      | none => .stuck s
      | some _ =>
          match closeUpvaluesLoop s.stack (s.stack.length - 1)
              s.heap s.openUpvalues with
          | none => .stuck s
          | some (heap, opens) =>
              let s := setIp s fr ip1
              .ok { s with heap := heap, openUpvalues := opens,
                           stack := s.stack.dropLast }
  | 36 => -- OP_RETURN
      match s.stack.getLast? with
      | none => .stuck s
      | some result =>
          let stack' := s.stack.dropLast
          match closeUpvaluesLoop stack' fr.slots s.heap s.openUpvalues with
          | none => .stuck s
          | some (heap, opens) =>
              if s.frames.length - 1 = 0 then
                match stack'.getLast? with
                | none => .stuck s
                | some _ =>
                    .finished { s with heap := heap, openUpvalues := opens,
                                       frames := [], stack := stack'.dropLast }
              else
                .ok { s with heap := heap, openUpvalues := opens,
                             frames := s.frames.dropLast,
                             stack := s.stack.take fr.slots ++ [result] }
  | 38 => -- OP_CLASS
      match ch.code.get? ip1 with
      | none => .stuck s
      | some b =>
          match readStringConst s.heap ch.constants b with
          | none => .stuck s
          | some nameRef =>
              let clsRef := s.heap.length
              .ok ((setIp { s with heap := s.heap ++ [newClassObj nameRef] }
                fr (ip1 + 1)).push (.obj clsRef))
  | 40 => -- OP_METHOD
      match ch.code.get? ip1 with
      | none => .stuck s
      | some b =>
          match readStringConst s.heap ch.constants b with
          | none => .stuck s
          | some nameRef =>
              match defineMethod (setIp s fr (ip1 + 1)) nameRef with
              | none => .stuck s
              | some s' => .ok s'
  | _ =>
      -- No case in the switch (OP_GET_SUPER 14, OP_SUPER_INVOKE 31,
      -- OP_MODULUS 34, OP_CONDITIONAL 37, OP_INHERIT 39, and any byte ≥ 41)
      -- and no default: control falls out of the switch, nothing happens,
      -- and the loop refetches at the next byte.
      .ok (setIp s fr ip1)

/-- One iteration of src/vm.c `run`: fetch through the current frame's
closure and function, read the opcode byte, dispatch. -/
def step (s : VmState) : StepResult :=
  match s.frames.getLast? with
  | none => .stuck s
  | some fr =>
      match s.heap.get? fr.closure with
      | some (.closure fnRef upvals) =>
          match s.heap.get? fnRef with
          | some (.function _ _ ch _) =>
              match ch.code.get? fr.ip with
              | some op => execOp s fr ch upvals op
              | none => .stuck s
          | _ => .stuck s
      | _ => .stuck s

/-! ## The garbage collector (src/memory.c)

The GC views the VM through its root sources.  Mark bits (`isMarked`) are
modeled as the set `marked`; the gray worklist (`vm.grayStack`) grows at the
tail and pops from the tail, exactly as `vm.grayStack[vm.grayCount++]` /
`vm.grayStack[--vm.grayCount]` do. -/

/-- Mark bits plus the gray worklist. -/
structure GcMarks where
  marked : List Nat
  gray : List Nat
deriving Repr, DecidableEq

/-- src/memory.c `markObject`: NULL and already-marked objects are skipped;
otherwise set the mark bit and push onto the gray stack. -/
def markObject (m : GcMarks) (o : Option Nat) : GcMarks :=
  match o with
  | none => m
  | some r =>
      if r ∈ m.marked then m
      else { marked := r :: m.marked, gray := m.gray ++ [r] }

/-- src/memory.c `markValue`: only object values reach `markObject`. -/
def markValue (m : GcMarks) (v : Value) : GcMarks :=
  match v with
  | .obj r => markObject m (some r)
  | _ => m

/-- src/memory.c `markArray`: mark every value of a constant array. -/
def markArray (m : GcMarks) (vs : List Value) : GcMarks :=
  vs.foldl markValue m

/-- src/table.c `markTable`: for every entry of the raw bucket array, mark
the key object (NULL keys are skipped inside `markObject`) and the value. -/
def markTable (m : GcMarks) (entries : List (Option Nat × Value)) : GcMarks :=
  entries.foldl (fun m e => markValue (markObject m e.1) e.2) m

/-- The VM as the collector sees it: the root sources of src/memory.c
`markRoots`, the heap for `blackenObject`, the intern table for
`tableRemoveWhite`, the allocation list (`vm.objects`) for `sweep`, and
`vm.initString`.  `globalsEntries` is the raw bucket array of `vm.globals`
(`none` keys are empty slots or tombstones); `stringsKeys` are the occupied
keys of `vm.strings`; `compilers` are the functions of the active compiler
chain walked by `markCompilerRoots` (src/compiler.c). -/
structure GcVm where
  heap : List HObj
  stack : List Value
  frameClosures : List Nat
  openUpvalues : List Nat
  globalsEntries : List (Option Nat × Value)
  stringsKeys : List Nat
  initString : Nat
  compilers : List Nat
  objects : List Nat
deriving Repr, DecidableEq

/-- src/memory.c `markRoots` (lines 162..178), in source order: every live
value-stack slot; every CallFrame's closure; every open upvalue; the globals
table; the compiler chain.  (No other statement appears in the function:
in particular `vm.initString` is never passed to `markObject`.) -/
def markRoots (g : GcVm) : GcMarks :=
  let m : GcMarks := ⟨[], []⟩
  let m := g.stack.foldl markValue m
  let m := g.frameClosures.foldl (fun m r => markObject m (some r)) m
  let m := g.openUpvalues.foldl (fun m r => markObject m (some r)) m
  let m := markTable m g.globalsEntries
  g.compilers.foldl (fun m r => markObject m (some r)) m

/-- src/memory.c `blackenObject`: walk one gray object's children.  The C
switch handles `OBJ_CLOSURE` (function, then each upvalue), `OBJ_FUNCTION`
(name, then the chunk's constants), `OBJ_UPVALUE` (the `closed` value, nil
while open per the spec's `newUpvalue`, object.c being absent from src/),
and does nothing for `OBJ_NATIVE`/`OBJ_STRING`.  It has NO case for
`OBJ_CLASS`, `OBJ_INSTANCE` or `OBJ_BOUND_METHOD`: those fall out of the
switch and mark nothing. -/
def blackenObject (heap : List HObj) (m : GcMarks) (r : Nat) : GcMarks :=
  match heap.get? r with
  | some (.closure fn uvs) =>
      uvs.foldl (fun m u => markObject m (some u)) (markObject m (some fn))
  | some (.function _ _ ch name) =>
      markArray (markObject m name) ch.constants
  | some (.upvalue loc) =>
      markValue m (match loc with
        | .closedVal v => v
        | .stackSlot _ => .nil)
  | _ => m

/-- src/memory.c `traceReferences`: pop gray objects and blacken them until
the worklist empties.  Each object is pushed at most once (`markObject`
tests the mark bit first), so the explicit fuel below suffices. -/
def traceLoop (heap : List HObj) : Nat → GcMarks → GcMarks
  | 0, m => m
  | fuel + 1, m =>
      match m.gray.getLast? with
      | none => m
      | some r => traceLoop heap fuel
          (blackenObject heap { m with gray := m.gray.dropLast } r)

/-- Fuel bound for `traceLoop`: every gray push marks a previously unmarked
ref, and every pushed ref is popped once, so the total number of iterations
is at most the initial gray size plus the total number of child references
in the heap. -/
def gcFuel (heap : List HObj) (m : GcMarks) : Nat :=
  m.gray.length + heap.length +
    (heap.map (fun o => match o with
      | .closure _ uvs => 1 + uvs.length
      | .function _ _ ch _ => 1 + ch.constants.length
      | .upvalue _ => 1
      | _ => 0)).sum

/-- Result of one collection: the final mark set, the surviving and freed
members of the allocation list, and the intern-table keys that survive
`tableRemoveWhite`. -/
structure GcResult where
  marked : List Nat
  survivors : List Nat
  freed : List Nat
  stringsKeys : List Nat
deriving Repr, DecidableEq

/-- src/memory.c `collectGarbage`: mark roots, trace, remove white intern
entries, sweep the allocation list (unmarked objects are unlinked and
freed; survivors have their mark bits cleared). -/
def collectGarbage (g : GcVm) : GcResult :=
  let m := markRoots g
  let m := traceLoop g.heap (gcFuel g.heap m) m
  let strs := g.stringsKeys.filter (fun k => m.marked.contains k)
  { marked := m.marked,
    survivors := g.objects.filter (fun r => m.marked.contains r),
    freed := g.objects.filter (fun r => !(m.marked.contains r)),
    stringsKeys := strs }

/-- The references `markRoots` can mark, as a plain list: object refs on the
value stack, the frames' closures, the open upvalues, the globals table's
keys and object values, and the compiler chain — and nothing else. -/
def rootRefs (g : GcVm) : List Nat :=
  (g.stack.filterMap (fun v => match v with | .obj r => some r | _ => none))
  ++ g.frameClosures
  ++ g.openUpvalues
  ++ (g.globalsEntries.flatMap (fun e =>
        (match e.1 with | some k => [k] | none => [])
        ++ (match e.2 with | .obj r => [r] | _ => [])))
  ++ g.compilers

/-! ## The Pratt parser rule table (src/scanner.h, src/compiler.c) -/

/-- src/scanner.h `TokenType`, in declaration order. -/
inductive TokenType where
  | TOKEN_LEFT_PAREN | TOKEN_RIGHT_PAREN | TOKEN_QUESTION
  | TOKEN_LEFT_BRACE | TOKEN_RIGHT_BRACE | TOKEN_COLON
  | TOKEN_COMMA | TOKEN_DOT | TOKEN_MINUS | TOKEN_PLUS
  | TOKEN_SEMICOLON | TOKEN_SLASH | TOKEN_STAR | TOKEN_PERCENT
  | TOKEN_BANG | TOKEN_BANG_EQUAL
  | TOKEN_EQUAL | TOKEN_EQUAL_EQUAL
  | TOKEN_GREATER | TOKEN_GREATER_EQUAL
  | TOKEN_LESS | TOKEN_LESS_EQUAL
  | TOKEN_IDENTIFIER | TOKEN_STRING | TOKEN_NUMBER
  | TOKEN_AND | TOKEN_CLASS | TOKEN_ELSE | TOKEN_FALSE | TOKEN_DEFAULT
  | TOKEN_FOR | TOKEN_FUN | TOKEN_IF | TOKEN_NIL | TOKEN_OR
  | TOKEN_PRINT | TOKEN_RETURN | TOKEN_SUPER | TOKEN_THIS | TOKEN_CONTINUE
  | TOKEN_TRUE | TOKEN_VAR | TOKEN_WHILE | TOKEN_CASE | TOKEN_SWITCH
  | TOKEN_ERROR | TOKEN_EOF
deriving Repr, DecidableEq

/-- src/compiler.c `Precedence`, lowest to highest. -/
inductive Precedence where
  | PREC_NONE | PREC_ASSIGNMENT | PREC_CONDITIONAL | PREC_OR | PREC_AND
  | PREC_EQUALITY | PREC_COMPARISON | PREC_TERM | PREC_FACTOR | PREC_UNARY
  | PREC_CALL | PREC_PRIMARY
deriving Repr, DecidableEq

/-- The parse handler functions of src/compiler.c that the `rules` table can
point at, one constructor per function (`variableFn` is the C `variable`,
`conditional` is the C `conditional` at compiler.c line 1177). -/
inductive ParseFnTag where
  | grouping | call | dot | unary | binary | variableFn | string | number
  | and_ | or_ | literal | super_ | this_ | conditional
deriving Repr, DecidableEq

/-- src/compiler.c `ParseRule`: prefix handler, infix handler, infix
precedence (fields `pre`/`inf` here). -/
structure ParseRule where
  pre : Option ParseFnTag
  inf : Option ParseFnTag
  prec : Precedence
deriving Repr, DecidableEq

/-- src/compiler.c `rules[]` (lines 666..708), entry for entry.  Token types
with no designated initializer in the C array (`TOKEN_QUESTION`,
`TOKEN_COLON`, `TOKEN_DEFAULT`, `TOKEN_CONTINUE`, `TOKEN_CASE`,
`TOKEN_SWITCH`) are zero-initialized: `{NULL, NULL, PREC_NONE}`. -/
def rules : TokenType → ParseRule
  | .TOKEN_LEFT_PAREN    => ⟨some .grouping, some .call, .PREC_CALL⟩
  | .TOKEN_RIGHT_PAREN   => ⟨none, none, .PREC_NONE⟩
  | .TOKEN_LEFT_BRACE    => ⟨none, none, .PREC_NONE⟩
  | .TOKEN_RIGHT_BRACE   => ⟨none, none, .PREC_NONE⟩
  | .TOKEN_COMMA         => ⟨none, none, .PREC_NONE⟩
  | .TOKEN_DOT           => ⟨none, some .dot, .PREC_CALL⟩
  | .TOKEN_MINUS         => ⟨some .unary, some .binary, .PREC_TERM⟩
  | .TOKEN_PLUS          => ⟨none, some .binary, .PREC_TERM⟩
  | .TOKEN_PERCENT       => ⟨none, some .binary, .PREC_TERM⟩
  | .TOKEN_SEMICOLON     => ⟨none, none, .PREC_NONE⟩
  | .TOKEN_SLASH         => ⟨none, some .binary, .PREC_FACTOR⟩
  | .TOKEN_STAR          => ⟨none, some .binary, .PREC_FACTOR⟩
  | .TOKEN_BANG          => ⟨some .unary, none, .PREC_NONE⟩
  | .TOKEN_BANG_EQUAL    => ⟨none, some .binary, .PREC_EQUALITY⟩
  | .TOKEN_EQUAL         => ⟨none, none, .PREC_NONE⟩
  | .TOKEN_EQUAL_EQUAL   => ⟨none, some .binary, .PREC_EQUALITY⟩
  | .TOKEN_GREATER       => ⟨none, some .binary, .PREC_COMPARISON⟩
  | .TOKEN_GREATER_EQUAL => ⟨none, some .binary, .PREC_COMPARISON⟩
  | .TOKEN_LESS          => ⟨none, some .binary, .PREC_COMPARISON⟩
  | .TOKEN_LESS_EQUAL    => ⟨none, some .binary, .PREC_COMPARISON⟩
  | .TOKEN_IDENTIFIER    => ⟨some .variableFn, none, .PREC_NONE⟩
  | .TOKEN_STRING        => ⟨some .string, none, .PREC_NONE⟩
  | .TOKEN_NUMBER        => ⟨some .number, none, .PREC_NONE⟩
  | .TOKEN_AND           => ⟨none, some .and_, .PREC_AND⟩
  | .TOKEN_CLASS         => ⟨none, none, .PREC_NONE⟩
  | .TOKEN_ELSE          => ⟨none, none, .PREC_NONE⟩
  | .TOKEN_FALSE         => ⟨some .literal, none, .PREC_NONE⟩
  | .TOKEN_FOR           => ⟨none, none, .PREC_NONE⟩
  | .TOKEN_FUN           => ⟨none, none, .PREC_NONE⟩
  | .TOKEN_IF            => ⟨none, none, .PREC_NONE⟩
  | .TOKEN_NIL           => ⟨some .literal, none, .PREC_NONE⟩
  | .TOKEN_OR            => ⟨none, some .or_, .PREC_OR⟩
  | .TOKEN_PRINT         => ⟨none, none, .PREC_NONE⟩
  | .TOKEN_RETURN        => ⟨none, none, .PREC_NONE⟩
  | .TOKEN_SUPER         => ⟨some .super_, none, .PREC_NONE⟩
  | .TOKEN_THIS          => ⟨some .this_, none, .PREC_NONE⟩
  | .TOKEN_TRUE          => ⟨some .literal, none, .PREC_NONE⟩
  | .TOKEN_VAR           => ⟨none, none, .PREC_NONE⟩
  | .TOKEN_WHILE         => ⟨none, none, .PREC_NONE⟩
  | .TOKEN_ERROR         => ⟨none, none, .PREC_NONE⟩
  | .TOKEN_EOF           => ⟨none, none, .PREC_NONE⟩
  | .TOKEN_QUESTION      => ⟨none, none, .PREC_NONE⟩
  | .TOKEN_COLON         => ⟨none, none, .PREC_NONE⟩
  | .TOKEN_DEFAULT       => ⟨none, none, .PREC_NONE⟩
  | .TOKEN_CONTINUE      => ⟨none, none, .PREC_NONE⟩
  | .TOKEN_CASE          => ⟨none, none, .PREC_NONE⟩
  | .TOKEN_SWITCH        => ⟨none, none, .PREC_NONE⟩

/-- Every token type, for closed quantifier-free statements over the table. -/
def allTokens : List TokenType :=
  [.TOKEN_LEFT_PAREN, .TOKEN_RIGHT_PAREN, .TOKEN_QUESTION,
   .TOKEN_LEFT_BRACE, .TOKEN_RIGHT_BRACE, .TOKEN_COLON,
   .TOKEN_COMMA, .TOKEN_DOT, .TOKEN_MINUS, .TOKEN_PLUS,
   .TOKEN_SEMICOLON, .TOKEN_SLASH, .TOKEN_STAR, .TOKEN_PERCENT,
   .TOKEN_BANG, .TOKEN_BANG_EQUAL, .TOKEN_EQUAL, .TOKEN_EQUAL_EQUAL,
   .TOKEN_GREATER, .TOKEN_GREATER_EQUAL, .TOKEN_LESS, .TOKEN_LESS_EQUAL,
   .TOKEN_IDENTIFIER, .TOKEN_STRING, .TOKEN_NUMBER,
   .TOKEN_AND, .TOKEN_CLASS, .TOKEN_ELSE, .TOKEN_FALSE, .TOKEN_DEFAULT,
   .TOKEN_FOR, .TOKEN_FUN, .TOKEN_IF, .TOKEN_NIL, .TOKEN_OR,
   .TOKEN_PRINT, .TOKEN_RETURN, .TOKEN_SUPER, .TOKEN_THIS, .TOKEN_CONTINUE,
   .TOKEN_TRUE, .TOKEN_VAR, .TOKEN_WHILE, .TOKEN_CASE, .TOKEN_SWITCH,
   .TOKEN_ERROR, .TOKEN_EOF]

/-- Whether any entry of the rule table points at handler `f`.  A handler
only runs when `parsePrecedence` reaches it through this table, so a tag
that appears nowhere is dead code. -/
def rulesTableRefs (f : ParseFnTag) : Bool :=
  allTokens.any (fun t => (rules t).pre == some f || (rules t).inf == some f)

/-! ## The statement compiler fragment (src/compiler.c)

The embedding below covers the statement-compiling functions that implement
loops and `continue` — `whileStatement`, `forStatement`, `continueStatement`,
blocks, local `var` declarations, print/expression statements — working over
an AST in place of the token stream (the syntax-consuming `consume`/`match`
calls have no semantic content beyond shaping that AST).  Expressions are
restricted to the literal handlers (`literal`, `number`), which is all the
claims under test need.  Closures do not occur in the fragment, so every
local has `isCaptured = false` and scope exit emits `OP_POP` only, exactly
as the C `endScope` then does. -/

/-- Compile error messages, one constructor per `error(...)` call in the
fragment (the C strings appear in src/compiler.c). -/
inductive CompErr where
  | continueOutsideLoop        -- "Can't use 'continue' outside of a loop."
  | loopBodyTooLarge           -- "Loop body too large."
  | tooMuchCodeToJumpOver      -- "Too much code to jump over."
  | tooManyConstantsInOneChunk -- "Too many constants in one chunk."
  | alreadyVariableInThisScope -- "Already a variable with this name in this scope."
  | tooManyLocalVariables      -- "Too many local variables in function."
deriving Repr, DecidableEq

/-- The compiler state the fragment touches: the current chunk's code, the
constant-pool count, the identifier-constant dedup table (`stringConstants`),
the locals array (name and depth; depth −1 marks "uninitialized"), the scope
depth, the two module-level loop-tracking globals
(`innermostLoopStart = -1` at module load, `innermostLoopScopeDepth = 0`),
and the parser's error flags. -/
structure CompilerSt where
  code : List Nat
  constants : Nat
  stringConstants : List (String × Nat)
  locals : List (String × Int)
  scopeDepth : Int
  innermostLoopStart : Int
  innermostLoopScopeDepth : Int
  panicMode : Bool
  hadError : Bool
  errors : List CompErr
deriving Repr, DecidableEq

/-- src/compiler.c `errorAt`: in panic mode further errors are suppressed;
otherwise enter panic mode and set `hadError`. -/
def cError (st : CompilerSt) (e : CompErr) : CompilerSt :=
  if st.panicMode then st
  else { st with panicMode := true, hadError := true, errors := st.errors ++ [e] }

/-- src/compiler.c `emitByte` (line info is irrelevant here). -/
def emitB (st : CompilerSt) (b : Nat) : CompilerSt :=
  { st with code := st.code ++ [b] }

/-- src/compiler.c `emitLoop`: `OP_LOOP` plus a big-endian 16-bit offset
computed as `count - loopStart + 2`; beyond 65535 is an error (the bytes are
still written). -/
def emitLoop (st : CompilerSt) (loopStart : Int) : CompilerSt :=
  let st := emitB st OP_LOOP
  let offset : Int := (st.code.length : Int) - loopStart + 2
  let st := if offset > 65535 then cError st .loopBodyTooLarge else st
  let st := emitB st ((offset.toNat >>> 8) &&& 0xff)
  emitB st (offset.toNat &&& 0xff)

/-- src/compiler.c `emitJump`: the opcode plus two placeholder bytes; returns
the offset of the placeholder. -/
def emitJump (st : CompilerSt) (instruction : Nat) : CompilerSt × Nat :=
  let st := emitB st instruction
  let st := emitB st 0xff
  let st := emitB st 0xff
  (st, st.code.length - 2)

/-- src/compiler.c `patchJump`: fill the two placeholder bytes with the
big-endian distance `count - offset - 2`. -/
def patchJump (st : CompilerSt) (offset : Nat) : CompilerSt :=
  let jump := st.code.length - offset - 2
  let st := if jump > 65535 then cError st .tooMuchCodeToJumpOver else st
  let patched := (st.code.set offset ((jump >>> 8) &&& 0xff)).set (offset + 1)
    (jump &&& 0xff)
  { st with code := patched }

/-- src/compiler.c `beginScope`. -/
def beginScope (st : CompilerSt) : CompilerSt :=
  { st with scopeDepth := st.scopeDepth + 1 }

/-- The loop of src/compiler.c `endScope`: pop trailing locals deeper than
the new scope depth, emitting `OP_POP` for each (none are captured in this
fragment).  Recursion is over the locals list, which the loop shortens. -/
def endScopeLoop : Nat → CompilerSt → CompilerSt
  | 0, st => st
  | fuel + 1, st =>
      match st.locals.getLast? with
      | some l =>
          if l.2 > st.scopeDepth then
            endScopeLoop fuel (emitB { st with locals := st.locals.dropLast } OP_POP)
          else st
      | none => st

/-- src/compiler.c `endScope`. -/
def endScope (st : CompilerSt) : CompilerSt :=
  let st := { st with scopeDepth := st.scopeDepth - 1 }
  endScopeLoop st.locals.length st

/-- src/compiler.c `makeConstant` via `addConstant`: append, then error if
the index exceeds one byte (the index is still returned truncated to 0). -/
def makeConstantC (st : CompilerSt) : CompilerSt × Nat :=
  let idx := st.constants
  let st := { st with constants := st.constants + 1 }
  if idx > 255 then (cError st .tooManyConstantsInOneChunk, 0) else (st, idx)

/-- src/compiler.c `identifierConstant`: dedup through the compile-time
`stringConstants` table. -/
def identifierConstantC (st : CompilerSt) (name : String) : CompilerSt × Nat :=
  match st.stringConstants.find? (fun e => e.1 == name) with
  | some e => (st, e.2)
  | none =>
      let (st, idx) := makeConstantC st
      ({ st with stringConstants := st.stringConstants ++ [(name, idx)] }, idx)

/-- The backward scan of src/compiler.c `declareVariable` over the reversed
locals list: stop at the first initialized local of an outer scope; error on
a same-name local in the current scope. -/
def declareVarScan (st : CompilerSt) (name : String) : List (String × Int) → CompilerSt
  | [] => st
  | l :: rest =>
      if l.2 ≠ -1 ∧ l.2 < st.scopeDepth then st
      else
        let st := if l.1 = name then cError st .alreadyVariableInThisScope else st
        declareVarScan st name rest

/-- src/compiler.c `addLocal`: capacity 256; new locals start at depth −1. -/
def addLocal (st : CompilerSt) (name : String) : CompilerSt :=
  if st.locals.length = 256 then cError st .tooManyLocalVariables
  else { st with locals := st.locals ++ [(name, -1)] }

/-- src/compiler.c `declareVariable`: globals (depth 0) are not declared. -/
def declareVariable (st : CompilerSt) (name : String) : CompilerSt :=
  if st.scopeDepth = 0 then st
  else addLocal (declareVarScan st name st.locals.reverse) name

/-- src/compiler.c `defineVariable` (with `markInitialized` inlined): in a
local scope the new local's depth becomes the scope depth; at top level emit
`OP_DEFINE_GLOBAL` with the name-constant index. -/
def defineVariable (st : CompilerSt) (global : Nat) : CompilerSt :=
  if st.scopeDepth > 0 then
    match st.locals.getLast? with
    | some l => { st with locals := st.locals.dropLast ++ [(l.1, st.scopeDepth)] }
    | none => st
  else emitB (emitB st OP_DEFINE_GLOBAL) global

/-- Expressions of the fragment: the `literal` handler cases and a number
literal (`number` → `emitConstant`). -/
inductive CExpr where
  | etrue | efalse | enil | enumber
deriving Repr, DecidableEq

/-- src/compiler.c `literal` / `number`: `OP_TRUE`, `OP_FALSE`, `OP_NIL`, or
`OP_CONSTANT` with a fresh pool index. -/
def compileExpr (st : CompilerSt) : CExpr → CompilerSt
  | .etrue => emitB st OP_TRUE
  | .efalse => emitB st OP_FALSE
  | .enil => emitB st OP_NIL
  | .enumber =>
      let (st, idx) := makeConstantC st
      emitB (emitB st OP_CONSTANT) idx

/-- src/compiler.c `varDeclaration` (name and initializer from the AST):
`parseVariable` declares the variable and, at top level only, interns the
name constant; then the initializer; then `defineVariable`. -/
def compileVarDecl (st : CompilerSt) (name : String) (e : CExpr) : CompilerSt :=
  let st := declareVariable st name
  let (st, global) :=
    if st.scopeDepth > 0 then (st, 0) else identifierConstantC st name
  let st := compileExpr st e
  defineVariable st global

/-- Statements of the fragment.  `sblock` is `{ ... }` (opens a scope);
`sseq` sequences two statements inside one block; `sfor`'s initializer
clause is an optional local `var` declaration. -/
inductive CStmt where
  | sprint (e : CExpr)
  | sexpr (e : CExpr)
  | svar (name : String) (e : CExpr)
  | swhile (cond : CExpr) (body : CStmt)
  | sfor (ini : Option (String × CExpr)) (cond : Option CExpr)
      (inc : Option CExpr) (body : CStmt)
  | scontinue
  | sblock (body : CStmt)
  | sseq (a b : CStmt)
deriving Repr, DecidableEq

/-- src/compiler.c `continueStatement`: outside any tracked loop
(`innermostLoopStart == -1`) report the error — and then, `error` not being
a return, still emit the pops and the backward loop.  One `OP_POP` per local
(scanned from the top) whose depth exceeds `innermostLoopScopeDepth`; then
`emitLoop` to `innermostLoopStart`. -/
def compileContinue (st : CompilerSt) : CompilerSt :=
  let st := if st.innermostLoopStart = -1 then cError st .continueOutsideLoop
    else st
  let st := (st.locals.reverse.takeWhile
      (fun l => l.2 > st.innermostLoopScopeDepth)).foldl
      (fun st _ => emitB st OP_POP) st
  emitLoop st st.innermostLoopStart

/-- The statement compiler: src/compiler.c `printStatement`,
`expressionStatement`, `varDeclaration`, `whileStatement` (lines 1094..1107
— note it never touches the loop-tracking globals), `forStatement` (lines
899..954, which saves, sets, and restores them), `continueStatement`, and
block compilation. -/
def compileStmt (st : CompilerSt) : CStmt → CompilerSt
  | .sprint e => emitB (compileExpr st e) OP_PRINT
  | .sexpr e => emitB (compileExpr st e) OP_POP
  | .svar name e => compileVarDecl st name e
  | .swhile cond body =>
      let loopStart : Int := st.code.length
      let st := compileExpr st cond
      let (st, exitJump) := emitJump st OP_JUMP_IF_FALSE
      let st := emitB st OP_POP
      let st := compileStmt st body
      let st := emitLoop st loopStart
      let st := patchJump st exitJump
      emitB st OP_POP
  | .sfor ini cond inc body =>
      let st := beginScope st
      let st := match ini with
        | none => st
        | some (name, e) => compileVarDecl st name e
      let surroundingLoopStart := st.innermostLoopStart
      let surroundingLoopScopeDepth := st.innermostLoopScopeDepth
      let st := { st with innermostLoopStart := st.code.length,
                          innermostLoopScopeDepth := st.scopeDepth }
      let loopStart : Int := st.code.length
      let (st, exitJump) := match cond with
        | none => (st, none)
        | some c =>
            let st := compileExpr st c
            let (st, j) := emitJump st OP_JUMP_IF_FALSE
            (emitB st OP_POP, some j)
      let st := match inc with
        | none => st
        | some i =>
            let (st, bodyJump) := emitJump st OP_JUMP
            let incrementStart := st.code.length
            let st := compileExpr st i
            let st := emitB st OP_POP
            let st := emitLoop st loopStart
            -- loopStart = incrementStart (dead: loopStart is not read again)
            let st := emitLoop st st.innermostLoopStart
            let st := { st with innermostLoopStart := incrementStart }
            patchJump st bodyJump
      let st := compileStmt st body
      let st := emitLoop st st.innermostLoopStart
      let st := match exitJump with
        | none => st
        | some j => emitB (patchJump st j) OP_POP
      let st := { st with innermostLoopStart := surroundingLoopStart,
                          innermostLoopScopeDepth := surroundingLoopScopeDepth }
      endScope st
  | .scontinue => compileContinue st
  | .sblock body => endScope (compileStmt (beginScope st) body)
  | .sseq a b => compileStmt (compileStmt st a) b

/-- src/compiler.c `initCompiler` state for a `TYPE_SCRIPT` compile: slot 0
holds the reserved empty-name local at depth 0; the module-level loop slots
hold their load-time values. -/
def initCompilerSt : CompilerSt :=
  { code := [], constants := 0, stringConstants := [], locals := [("", 0)],
    scopeDepth := 0, innermostLoopStart := -1, innermostLoopScopeDepth := 0,
    panicMode := false, hadError := false, errors := [] }

/-- src/compiler.c `binary`: the opcode byte(s) emitted for each binary
operator token (after the right operand is compiled).  The default arm of
the C switch returns without emitting (unreachable). -/
def binaryOpBytes : TokenType → List Nat
  | .TOKEN_BANG_EQUAL => [OP_EQUAL, OP_NOT]
  | .TOKEN_EQUAL_EQUAL => [OP_EQUAL]
  | .TOKEN_GREATER => [OP_GREATER]
  | .TOKEN_GREATER_EQUAL => [OP_LESS, OP_NOT]
  | .TOKEN_LESS => [OP_LESS]
  | .TOKEN_LESS_EQUAL => [OP_GREATER, OP_NOT]
  | .TOKEN_PLUS => [OP_ADD]
  | .TOKEN_MINUS => [OP_NEGATE, OP_ADD]
  | .TOKEN_STAR => [OP_MULTIPLY]
  | .TOKEN_SLASH => [OP_DIVIDE]
  | .TOKEN_PERCENT => [OP_MODULUS]
  | _ => []

/-- The projection of a compiler state onto the two module-level
loop-tracking globals (`innermostLoopStart`, `innermostLoopScopeDepth`). -/
def loopSlots (st : CompilerSt) : Int × Int :=
  (st.innermostLoopStart, st.innermostLoopScopeDepth)

/-! ## Concrete states used by the claim theorems -/

/-- A VM state poised on `OP_INHERIT` (opcode 39): the stack holds the
superclass `A` (ref 7, one method `greet` at key 0) below the freshly
created subclass `B` (ref 8, empty method table), exactly the layout
`classDeclaration` arranges before `OP_INHERIT` runs. -/
def sC1 : VmState :=
  { heap := [.str "greet", .str "A", .str "B",
             .function 0 0 ⟨[39], [], []⟩ none, .closure 3 [],
             .function 0 0 ⟨[], [], []⟩ none, .closure 5 [],
             .cls 1 .nil [(0, .obj 6)], .cls 2 .nil [], .str "init"],
    stack := [.obj 7, .obj 8], frames := [⟨4, 0, 0⟩], globals := [],
    openUpvalues := [], strings := [0, 1, 2, 9], initString := 9,
    output := [], clockSeconds := 0 }

/-- A VM state poised on `OP_MODULUS` (opcode 34) with two non-integer
number operands (7/2 and 5/2). -/
def sC2mod : VmState :=
  { heap := [.function 0 0 ⟨[34], [], []⟩ none, .closure 0 [], .str "init"],
    stack := [.num (7 / 2), .num (5 / 2)], frames := [⟨1, 0, 0⟩],
    globals := [], openUpvalues := [], strings := [2], initString := 2,
    output := [], clockSeconds := 0 }

/-- A VM state poised on `OP_DIVIDE` (opcode 22) with a zero right operand. -/
def sC2div : VmState :=
  { heap := [.function 0 0 ⟨[22], [], []⟩ none, .closure 0 [], .str "init"],
    stack := [.num 1, .num 0], frames := [⟨1, 0, 0⟩],
    globals := [], openUpvalues := [], strings := [2], initString := 2,
    output := [], clockSeconds := 0 }

/-- A VM state poised on `OP_CONDITIONAL` (opcode 37) with a truthy condition
and the two precomputed branch values 1 and 2 on the stack. -/
def sC3 : VmState :=
  { heap := [.function 0 0 ⟨[37], [], []⟩ none, .closure 0 [], .str "init"],
    stack := [.bool true, .num 1, .num 2], frames := [⟨1, 0, 0⟩],
    globals := [], openUpvalues := [], strings := [2], initString := 2,
    output := [], clockSeconds := 0 }

/-- A VM state poised on `OP_RETURN` (opcode 36) in an inner frame with base 2;
one open upvalue (ref 2) references slot 2 (at the base) and another (ref 3)
references slot 0 (below it); the return value is 13. -/
def sC8w : VmState :=
  { heap := [.function 0 0 ⟨[36], [], []⟩ none, .closure 0 [],
             .upvalue (.stackSlot 2), .upvalue (.stackSlot 0), .str "init"],
    stack := [.num 10, .num 11, .num 12, .num 13],
    frames := [⟨1, 0, 0⟩, ⟨1, 0, 2⟩],
    globals := [], openUpvalues := [2, 3], strings := [4], initString := 4,
    output := [], clockSeconds := 0 }

/-- A GC view of a just-booted VM after the stacks emptied: the heap holds
only the interned `init` string (ref 0), which `vm.initString` names and the
intern table holds; nothing is on the stack, in frames, in globals, or in
the compiler chain. -/
def gInitC6 : GcVm :=
  { heap := [.str "init"], stack := [], frameClosures := [], openUpvalues := [],
    globalsEntries := [], stringsKeys := [0], initString := 0, compilers := [],
    objects := [0] }

/-- A GC view with a class (ref 3) live on the value stack; its method table
maps `greet` (ref 0) to a closure (ref 2) over a function (ref 1); the class
name is ref 4.  The closure and name are reachable only through the class. -/
def gC7 : GcVm :=
  { heap := [.str "greet", .function 0 0 ⟨[], [], []⟩ none, .closure 1 [],
             .cls 4 .nil [(0, .obj 2)], .str "A"],
    stack := [.obj 3], frameClosures := [], openUpvalues := [],
    globalsEntries := [], stringsKeys := [0, 4], initString := 0,
    compilers := [], objects := [0, 1, 2, 3, 4] }

/-- The program `while (true) continue;` over the fragment AST. -/
def progWhileContinue : CStmt := .swhile .etrue .scontinue

/-- The program `for (; true; ) { var x = nil; continue; }` over the
fragment AST. -/
def progForContinue : CStmt :=
  .sfor none (some .etrue) none (.sblock (.sseq (.svar "x" .enil) .scontinue))

/-! ## Helper lemmas -/

theorem allTokens_complete : ∀ t : TokenType, t ∈ allTokens := by
  intro t
  cases t <;> simp [allTokens]

theorem get?_append_length {α : Type} (pre : List α) (x : α) (post : List α) :
    (pre ++ x :: post).get? pre.length = some x := by
  induction pre with
  | nil => rfl
  | cons h t ih => simpa using ih

theorem mem_markObject {m : GcMarks} {o : Option Nat} {r : Nat} :
    r ∈ (markObject m o).marked ↔ r ∈ m.marked ∨ o = some r := by
  cases o with
  | none => simp [markObject]
  | some x =>
      by_cases hx : x ∈ m.marked
      · simp only [markObject, if_pos hx, Option.some.injEq]
        constructor
        · exact fun h => Or.inl h
        · rintro (h | rfl) <;> [exact h; exact hx]
      · simp only [markObject, if_neg hx, List.mem_cons, Option.some.injEq]
        constructor
        · rintro (rfl | h) <;> [exact Or.inr rfl; exact Or.inl h]
        · rintro (h | rfl) <;> [exact Or.inr h; exact Or.inl rfl]

theorem mem_markValue {m : GcMarks} {v : Value} {r : Nat} :
    r ∈ (markValue m v).marked ↔ r ∈ m.marked ∨ v = .obj r := by
  cases v <;> simp [markValue, mem_markObject]

theorem mem_foldl_mark {α : Type} (f : GcMarks → α → GcMarks)
    (P : α → Nat → Prop)
    (hf : ∀ m a r, r ∈ (f m a).marked ↔ r ∈ m.marked ∨ P a r) :
    ∀ (l : List α) (m : GcMarks) (r : Nat),
      r ∈ (l.foldl f m).marked ↔ r ∈ m.marked ∨ ∃ a ∈ l, P a r := by
  intro l
  induction l with
  | nil => simp
  | cons x xs ih =>
      intro m r
      rw [List.foldl_cons, ih, hf]
      simp only [List.mem_cons]
      constructor
      · rintro ((h | h) | ⟨a, ha, hp⟩)
        · exact Or.inl h
        · exact Or.inr ⟨x, Or.inl rfl, h⟩
        · exact Or.inr ⟨a, Or.inr ha, hp⟩
      · rintro (h | ⟨a, (rfl | ha), hp⟩)
        · exact Or.inl (Or.inl h)
        · exact Or.inl (Or.inr hp)
        · exact Or.inr ⟨a, ha, hp⟩

/-! ## Claim theorems -/

/-- C1 (code_bug evidence): executing `OP_INHERIT` does nothing.  In `sC1`
the superclass (ref 7) carries method `greet` and the subclass (ref 8) has
an empty method table; the step only advances the instruction pointer — the
heap (so both method tables) and the stack are unchanged, no entry is
copied, and the subclass is not even popped.  `B().greet()` would therefore
raise "Undefined property" instead of printing `hi`. -/
theorem C1_inherit_unhandled :
    step sC1 = .ok { sC1 with frames := [⟨4, 1, 0⟩] } ∧
    sC1.heap.get? 7 = some (.cls 1 .nil [(0, .obj 6)]) ∧
    sC1.heap.get? 8 = some (.cls 2 .nil []) := by
  refine ⟨?_, rfl, rfl⟩
  rfl

/-- C2 (counterexample): `%` on the non-integer numbers 7/2 and 5/2 raises
no runtime error at all — the step result is `ok` with the operands still on
the stack (the VM switch has no `OP_MODULUS` case); and `/` with right
operand 0 also raises no error — the step result is `ok` with the quotient
pushed (the embedding's total division returns 0 where C produces inf; the
decisive fact is the `ok`, not the payload). -/
theorem C2_counterexample :
    step sC2mod = .ok { sC2mod with frames := [⟨1, 1, 0⟩] } ∧
    step sC2div = .ok { sC2div with stack := [.num (1 / 0)],
                                    frames := [⟨1, 1, 0⟩] } := by
  exact ⟨rfl, rfl⟩

/-- C3 (counterexample): the rule-table entry for `TOKEN_QUESTION` is
zero-initialized — no prefix handler, no infix handler — so `c ? t : e`
is never parsed as a conditional (the `conditional` handler is unreachable);
and executing `OP_CONDITIONAL` over the precomputed branches `[true, 1, 2]`
selects nothing: the step merely advances past the opcode, leaving all
three values on the stack, so the expression does not evaluate to `t`. -/
theorem C3_counterexample :
    (rules .TOKEN_QUESTION).pre = none ∧
    (rules .TOKEN_QUESTION).inf = none ∧
    step sC3 = .ok { sC3 with frames := [⟨1, 1, 0⟩] } := by
  exact ⟨rfl, rfl, rfl⟩

set_option maxRecDepth 8000 in
/-- C4 (code_bug evidence): with 257 constants already pooled, `writeConstant`
emits `OP_CONSTANT_LONG` with operand bytes `[1, 1, 0]` — index 257
little-endian, as the spec states and as the disassembler decodes — but the
VM's `READ_CONSTANT_LONG` decodes those same bytes as 65792: the round-trip
fails from the 258th constant on whenever the low and high operand bytes
differ. -/
theorem C4_long_constant_decode_mismatch :
    (writeConstant ⟨[], [], List.replicate 257 (.num 0)⟩ (.num 1) 1).code
      = [OP_CONSTANT_LONG, 1, 1, 0] ∧
    readConstantLongIndex 1 1 0 = 65792 ∧
    debugLongConstantIndex 1 1 0 = 257 ∧
    readConstantLongIndex 1 1 0 ≠ 257 ∧
    (writeConstant ⟨[], [], []⟩ (.num 1) 1).code = [OP_CONSTANT, 0] := by
  refine ⟨?_, by decide, by decide, by decide, ?_⟩ <;> rfl

/-- C5 (counterexample): compiling `while (true) continue;` — a `continue`
directly inside a while loop — produces the compile error transcribing
"Can't use 'continue' outside of a loop.", because `whileStatement` never
sets the loop-tracking slots; the claim instead requires this continue to
compile into a backward `OP_LOOP` to the while loop's start. -/
theorem C5_counterexample :
    (compileStmt initCompilerSt progWhileContinue).hadError = true ∧
    (compileStmt initCompilerSt progWhileContinue).errors
      = [.continueOutsideLoop] := by
  exact ⟨rfl, rfl⟩

/-- C6 (counterexample): a collection run on a VM whose only heap object is
the interned `init` string named by `vm.initString` marks nothing — markRoots
never touches `vm.initString` — so `tableRemoveWhite` drops it from the
intern table and sweep frees it while the VM is live. -/
theorem C6_counterexample :
    collectGarbage gInitC6 = ⟨[], [], [0], []⟩ ∧
    gInitC6.initString = 0 ∧
    gInitC6.heap.get? 0 = some (.str "init") := by
  exact ⟨rfl, rfl, rfl⟩

/-- C7 (counterexample): with class ref 3 rooted on the value stack, the
collection marks only the class itself: blackening a Class marks nothing
(the C switch has no `OBJ_CLASS` case), so its name (ref 4), its method key
`greet` (ref 0) and the method closure (ref 2, with its function ref 1) —
reachable only through the class's method table — are all swept. -/
theorem C7_counterexample :
    collectGarbage gC7 = ⟨[3], [3], [0, 1, 2, 4], []⟩ ∧
    gC7.heap.get? 3 = some (.cls 4 .nil [(0, .obj 2)]) ∧
    gC7.heap.get? 2 = some (.closure 1 []) := by
  exact ⟨rfl, rfl, rfl⟩

/-- C9 (counterexample): no entry of the parse-rule table points at the
`conditional` handler — the only function that emits `OP_CONDITIONAL` — so,
contrary to the claim's parenthetical, the compiler cannot emit
`OP_CONDITIONAL` (handlers run only when `parsePrecedence` reaches them
through this table). -/
theorem C9_counterexample : rulesTableRefs ParseFnTag.conditional = false := by
  rfl

/-- C10: on a table whose `count` is 0 — whatever its capacity and whatever
its entries array holds — `tableGet` and `tableDelete` return false without
probing (the table is returned unchanged) and `tableFindString` returns NULL
without probing; and the probe `tableSet` performs always happens at nonzero
(in fact ≥ 8) capacity, because the load-factor growth step fires first
whenever the capacity is 0.  Together these keep the `capacity - 1` index
masking well defined. -/
theorem C10_zero_count_guards :
    (∀ (strs : List StrObj) (cap : Nat) (es : List Entry) (k : Nat),
      tableGet strs ⟨0, cap, es⟩ k = none) ∧
    (∀ (strs : List StrObj) (cap : Nat) (es : List Entry) (k : Nat),
      tableDelete strs ⟨0, cap, es⟩ k = (false, ⟨0, cap, es⟩)) ∧
    (∀ (strs : List StrObj) (cap : Nat) (es : List Entry) (chars : String)
      (hash : Nat), tableFindString strs ⟨0, cap, es⟩ chars hash = none) ∧
    (∀ (strs : List StrObj) (t : Table), 0 < (tableSetGrown strs t).capacity) := by
  refine ⟨fun _ _ _ _ => rfl, fun _ _ _ _ => rfl, fun _ _ _ _ _ => rfl, ?_⟩
  intro strs t
  have hcap : ∀ c, (adjustCapacity strs t c).capacity = c := fun _ => rfl
  unfold tableSetGrown
  split
  · rw [hcap]
    unfold growCapacity
    split <;> omega
  · next h => omega

/-- C2 (amended): what `%` and `/` actually do.  `%` compiles to
`OP_MODULUS`, for which the VM dispatch has no case: executing it performs
no operation — no error of any kind (in particular not "Modulo requires
integer operands"), operands left in place, execution continuing at the next
byte.  `/` checks only that both operands are numbers and pushes the
quotient with no zero test, so a zero right operand raises no error. -/
theorem C2_modulus_divide_behavior :
    (∀ (s : VmState) (fr : CallFrame) (fnRef ar uc : Nat)
      (upvals : List Nat) (ch : Chunk) (nm : Option Nat),
      s.frames.getLast? = some fr →
      s.heap.get? fr.closure = some (.closure fnRef upvals) →
      s.heap.get? fnRef = some (.function ar uc ch nm) →
      ch.code.get? fr.ip = some OP_MODULUS →
      step s = .ok (setIp s fr (fr.ip + 1))) ∧
    (∀ (s : VmState) (fr : CallFrame) (fnRef ar uc : Nat)
      (upvals : List Nat) (ch : Chunk) (nm : Option Nat) (a b : Rat),
      s.frames.getLast? = some fr →
      s.heap.get? fr.closure = some (.closure fnRef upvals) →
      s.heap.get? fnRef = some (.function ar uc ch nm) →
      ch.code.get? fr.ip = some OP_DIVIDE →
      s.peek 0 = some (.num b) → s.peek 1 = some (.num a) →
      step s = .ok { setIp s fr (fr.ip + 1) with
        stack := s.stack.dropLast.dropLast ++ [.num (a / b)] }) := by
  constructor
  · intro s fr fnRef ar uc upvals ch nm hfr hcl hfn hop
    simp only [step, hfr, hcl, hfn, hop]
    rfl
  · intro s fr fnRef ar uc upvals ch nm a b hfr hcl hfn hop hb ha
    simp only [step, hfr, hcl, hfn, hop]
    show execOp s fr ch upvals OP_DIVIDE = _
    simp only [execOp, OP_DIVIDE, hb, ha]
    rfl

/-- C2 (witness): the amended behaviour at the concrete states `sC2mod`
(7/2 % 5/2) and `sC2div` (1 / 0). -/
theorem C2_witness :
    step sC2mod = .ok (setIp sC2mod ⟨1, 0, 0⟩ 1) ∧
    step sC2div = .ok { setIp sC2div ⟨1, 0, 0⟩ 1 with
      stack := sC2div.stack.dropLast.dropLast ++ [.num (1 / 0)] } := by
  constructor
  · exact C2_modulus_divide_behavior.1 sC2mod ⟨1, 0, 0⟩ 0 0 0 []
      ⟨[34], [], []⟩ none rfl rfl rfl rfl
  · exact C2_modulus_divide_behavior.2 sC2div ⟨1, 0, 0⟩ 0 0 0 []
      ⟨[22], [], []⟩ none 1 0 rfl rfl rfl rfl rfl rfl

/-- C3 (amended): the conditional operator never reaches the VM.  The rule
table assigns `TOKEN_QUESTION` no prefix and no infix handler (its entry is
zero-initialized), and no entry anywhere references the `conditional`
handler — the only emitter of `OP_CONDITIONAL` — so `c ? t : e` is not
parsed as a conditional; and were an `OP_CONDITIONAL` byte ever executed,
the dispatch has no case for it: it selects nothing and execution just
continues at the next byte, with both precomputed branches (and the
condition) left on the stack. -/
theorem C3_conditional_dead :
    rules .TOKEN_QUESTION = ⟨none, none, .PREC_NONE⟩ ∧
    rulesTableRefs .conditional = false ∧
    (∀ (s : VmState) (fr : CallFrame) (fnRef ar uc : Nat)
      (upvals : List Nat) (ch : Chunk) (nm : Option Nat),
      s.frames.getLast? = some fr →
      s.heap.get? fr.closure = some (.closure fnRef upvals) →
      s.heap.get? fnRef = some (.function ar uc ch nm) →
      ch.code.get? fr.ip = some OP_CONDITIONAL →
      step s = .ok (setIp s fr (fr.ip + 1))) := by
  refine ⟨rfl, rfl, ?_⟩
  intro s fr fnRef ar uc upvals ch nm hfr hcl hfn hop
  simp only [step, hfr, hcl, hfn, hop]
  rfl

/-- C3 (witness): the no-selection behaviour at the concrete state `sC3`
(`true ? 1 : 2` precomputed on the stack). -/
theorem C3_witness : step sC3 = .ok (setIp sC3 ⟨1, 0, 0⟩ 1) :=
  C3_conditional_dead.2.2 sC3 ⟨1, 0, 0⟩ 0 0 0 [] ⟨[37], [], []⟩ none
    rfl rfl rfl rfl

/-- C9 (amended): the dispatch switch has no default branch, and executing
any of the five opcodes it lacks a case for — `OP_GET_SUPER`,
`OP_SUPER_INVOKE`, `OP_MODULUS`, `OP_CONDITIONAL`, `OP_INHERIT` — performs
no operation at all: no error, value and frame stacks unchanged, execution
continuing with the next instruction byte.  `OP_MODULUS` is emittable (the
`%` rule routes to `binary`, which emits it); `OP_CONDITIONAL` is not: no
rule references its only emitter, the `conditional` handler. -/
theorem C9_no_default_noop :
    (∀ op ∈ [OP_GET_SUPER, OP_SUPER_INVOKE, OP_MODULUS, OP_CONDITIONAL,
        OP_INHERIT],
      ∀ (s : VmState) (fr : CallFrame) (fnRef ar uc : Nat)
        (upvals : List Nat) (ch : Chunk) (nm : Option Nat),
        s.frames.getLast? = some fr →
        s.heap.get? fr.closure = some (.closure fnRef upvals) →
        s.heap.get? fnRef = some (.function ar uc ch nm) →
        ch.code.get? fr.ip = some op →
        step s = .ok (setIp s fr (fr.ip + 1))) ∧
    binaryOpBytes .TOKEN_PERCENT = [OP_MODULUS] ∧
    rulesTableRefs .binary = true ∧
    rulesTableRefs .conditional = false := by
  refine ⟨?_, rfl, rfl, rfl⟩
  intro op hop s fr fnRef ar uc upvals ch nm hfr hcl hfn hbyte
  simp only [step, hfr, hcl, hfn, hbyte]
  simp only [List.mem_cons, List.mem_singleton, OP_GET_SUPER, OP_SUPER_INVOKE,
    OP_MODULUS, OP_CONDITIONAL, OP_INHERIT] at hop
  rcases hop with rfl | rfl | rfl | rfl | rfl | h
  · rfl
  · rfl
  · rfl
  · rfl
  · rfl
  · simp at h

/-- C9 (witness): the no-op behaviour at the concrete `OP_INHERIT` state
`sC1`. -/
theorem C9_witness : step sC1 = .ok (setIp sC1 ⟨4, 0, 0⟩ 1) :=
  C9_no_default_noop.1 OP_INHERIT (by simp) sC1 ⟨4, 0, 0⟩ 3 0 0 []
    ⟨[39], [], []⟩ none rfl rfl rfl rfl

/-- C6 (amended): exactly which references `markRoots` marks — the object
refs on the value stack, every CallFrame's closure, every open upvalue, the
globals table's keys and object values, and the compiler chain's functions.
`vm.initString` is NOT among them (no statement of `markRoots` touches it):
when the `init` string is reachable from no other root it is removed from
the intern table and freed by sweep, as `C6_counterexample` exhibits. -/
theorem C6_mark_roots_exact (g : GcVm) (r : Nat) :
    r ∈ (markRoots g).marked ↔ r ∈ rootRefs g := by
  have hstack := mem_foldl_mark markValue (fun v r => v = .obj r)
    (fun _ _ _ => mem_markValue)
  have hobj := mem_foldl_mark (fun m x => markObject m (some x))
    (fun a r => a = r) (fun m a r => by rw [mem_markObject]; simp)
  have htab := mem_foldl_mark (fun m (e : Option Nat × Value) =>
      markValue (markObject m e.1) e.2)
    (fun e r => e.1 = some r ∨ e.2 = .obj r)
    (fun m e r => by rw [mem_markValue, mem_markObject]; tauto)
  simp only [markRoots, markTable]
  rw [hobj, htab, hobj, hobj, hstack]
  simp only [rootRefs, List.mem_append, List.mem_filterMap, List.mem_flatMap,
    List.not_mem_nil, false_or]
  refine or_congr (or_congr (or_congr (or_congr ?_ ?_) ?_) ?_) ?_
  · exact exists_congr fun v => and_congr_right fun _ => by cases v <;> simp
  · simp
  · simp
  · refine exists_congr fun e => and_congr_right fun _ => ?_
    rcases e with ⟨k, v⟩
    rcases k with _ | k <;> cases v <;> simp [eq_comm]
  · simp

/-- C7 (amended): blackening a Class, an Instance, or a BoundMethod marks
nothing at all — the `blackenObject` switch has no case for those variants —
so an object reachable only through a class's method table, an instance's
fields, or a bound method is never marked and does not survive sweep
(`C7_counterexample` exhibits the sweep).  Each equality places the object
at an arbitrary heap position `pre.length`. -/
theorem C7_blacken_class_instance_bound :
    (∀ (pre post : List HObj) (m : GcMarks) (n : Nat) (i : Value)
      (mets : List (Nat × Value)),
      blackenObject (pre ++ .cls n i mets :: post) m pre.length = m) ∧
    (∀ (pre post : List HObj) (m : GcMarks) (k : Nat)
      (fl : List (Nat × Value)),
      blackenObject (pre ++ .inst k fl :: post) m pre.length = m) ∧
    (∀ (pre post : List HObj) (m : GcMarks) (rv : Value) (mth : Nat),
      blackenObject (pre ++ .bound rv mth :: post) m pre.length = m) := by
  refine ⟨?_, ?_, ?_⟩ <;>
    (intros; unfold blackenObject; rw [get?_append_length])

/-- The effect of src/vm.c `closeUpvalues(last)` on a well-formed open list:
the walked prefix is exactly the leading run of slots at or above `last`
(`takeWhile`); each of those upvalues becomes closed over the current value
of its slot; the rest of the list survives untouched. -/
theorem closeLoop_spec (stack : List Value) (last : Nat) :
    ∀ (ol : List (Nat × Nat)) (heap : List HObj),
      (∀ p ∈ ol, heap.get? p.1 = some (.upvalue (.stackSlot p.2)) ∧
        p.2 < stack.length) →
      (ol.map Prod.fst).Nodup →
      closeUpvaluesLoop stack last heap (ol.map Prod.fst) =
        some ((ol.takeWhile (fun p => decide (last ≤ p.2))).foldl
            (fun h p => h.set p.1 (.upvalue (.closedVal (stack.getD p.2 .nil))))
            heap,
          (ol.dropWhile (fun p => decide (last ≤ p.2))).map Prod.fst) := by
  intro ol
  induction ol with
  | nil => intro heap _ _; rfl
  | cons p ol ih =>
      intro heap hw hnd
      have hp := hw p (List.mem_cons_self p ol)
      simp only [List.map_cons, closeUpvaluesLoop, hp.1]
      by_cases hle : last ≤ p.2
      · rw [if_pos hle]
        have hget : stack.get? p.2 = some (stack.getD p.2 .nil) := by
          rcases h : stack.get? p.2 with _ | v
          · exact absurd (List.get?_eq_none.mp h) (Nat.not_le_of_lt hp.2)
          · simp [List.getD_eq_getElem?_getD, ← List.get?_eq_getElem?, h]
        simp only [hget]
        have hnd' := hnd
        simp only [List.map_cons, List.nodup_cons] at hnd'
        rw [ih (heap.set p.1 (.upvalue (.closedVal (stack.getD p.2 .nil))))
          (fun q hq => ⟨by
            rw [List.get?_set_ne _ _ ?_]
            · exact (hw q (List.mem_cons_of_mem p hq)).1
            · intro hqe
              exact hnd'.1 (hqe ▸ List.mem_map_of_mem Prod.fst hq)
            , (hw q (List.mem_cons_of_mem p hq)).2⟩)
          hnd'.2]
        rw [List.takeWhile_cons, List.dropWhile_cons]
        simp [decide_eq_true hle]
      · rw [if_neg hle]
        rw [List.takeWhile_cons, List.dropWhile_cons]
        simp only [decide_eq_false hle]
        simp

/-- In a strictly descending open list, every entry with slot at or above
`last` lies in the leading `takeWhile` run — so the walk closes all of
them. -/
theorem mem_takeWhile_of_sorted (last : Nat) :
    ∀ (ol : List (Nat × Nat)), ol.Pairwise (fun a b => a.2 > b.2) →
      ∀ p ∈ ol, last ≤ p.2 →
        p ∈ ol.takeWhile (fun p => decide (last ≤ p.2)) := by
  intro ol
  induction ol with
  | nil => intro _ p hp; cases hp
  | cons q ol ih =>
      intro hpair p hp hle
      rw [List.takeWhile_cons]
      rcases List.mem_cons.mp hp with rfl | hmem
      · simp [decide_eq_true hle]
      · have hgt : q.2 > p.2 := (List.pairwise_cons.mp hpair).1 p hmem
        have hq : last ≤ q.2 := le_trans hle (le_of_lt hgt)
        simp only [decide_eq_true hq, if_true]
        exact List.mem_cons_of_mem _
          (ih (List.pairwise_cons.mp hpair).2 p hmem hle)

/-- C8: `OP_RETURN` semantics, for any state whose open-upvalue list is the
descending, duplicate-free list of open upvalues `ol` (ref, slot) over live
slots below the popped return value.  The step pops the return value, closes
exactly the open upvalues whose slot is at or above the frame's base
(conjuncts 2 and 3: every such entry is in the closed `takeWhile` run, and
every entry below the base stays open), and decrements the frame count; with
one frame it also pops the script value and finishes with `INTERPRET_OK`,
otherwise it truncates the value stack to the frame's base and pushes the
return value for the caller. -/
theorem C8_return_semantics
    (s : VmState) (fr : CallFrame) (fnRef ar uc : Nat) (upvals : List Nat)
    (ch : Chunk) (nm : Option Nat) (stk : List Value) (result : Value)
    (ol : List (Nat × Nat))
    (hfr : s.frames.getLast? = some fr)
    (hcl : s.heap.get? fr.closure = some (.closure fnRef upvals))
    (hfn : s.heap.get? fnRef = some (.function ar uc ch nm))
    (hop : ch.code.get? fr.ip = some OP_RETURN)
    (hstk : s.stack = stk ++ [result])
    (hbase : fr.slots ≤ stk.length)
    (hol : s.openUpvalues = ol.map Prod.fst)
    (holw : ∀ p ∈ ol, s.heap.get? p.1 = some (.upvalue (.stackSlot p.2)) ∧
      p.2 < stk.length)
    (hnd : (ol.map Prod.fst).Nodup)
    (hsort : ol.Pairwise (fun a b => a.2 > b.2))
    (hscript : s.frames.length = 1 → stk ≠ []) :
    (step s =
      if s.frames.length = 1 then
        .finished { s with
          heap := (ol.takeWhile (fun p => decide (fr.slots ≤ p.2))).foldl
            (fun h p => h.set p.1 (.upvalue (.closedVal (stk.getD p.2 .nil))))
            s.heap,
          openUpvalues := (ol.dropWhile
            (fun p => decide (fr.slots ≤ p.2))).map Prod.fst,
          frames := [], stack := stk.dropLast }
      else
        .ok { s with
          heap := (ol.takeWhile (fun p => decide (fr.slots ≤ p.2))).foldl
            (fun h p => h.set p.1 (.upvalue (.closedVal (stk.getD p.2 .nil))))
            s.heap,
          openUpvalues := (ol.dropWhile
            (fun p => decide (fr.slots ≤ p.2))).map Prod.fst,
          frames := s.frames.dropLast,
          stack := stk.take fr.slots ++ [result] }) ∧
    (∀ p ∈ ol, fr.slots ≤ p.2 →
      p ∈ ol.takeWhile (fun p => decide (fr.slots ≤ p.2))) ∧
    (∀ p ∈ ol, p.2 < fr.slots →
      p.1 ∈ (ol.dropWhile (fun p => decide (fr.slots ≤ p.2))).map Prod.fst) := by
  refine ⟨?_, fun p hp hle => mem_takeWhile_of_sorted fr.slots ol hsort p hp hle,
    fun p hp hlt => ?_⟩
  · simp only [step, hfr, hcl, hfn, hop]
    show execOp s fr ch upvals OP_RETURN = _
    have hlen : s.frames ≠ [] := by
      intro he; rw [he] at hfr; cases hfr
    have hlen1 : 0 < s.frames.length := List.length_pos.mpr hlen
    simp only [execOp, OP_RETURN, hstk, List.getLast?_concat,
      List.dropLast_concat, hol]
    simp only [closeLoop_spec stk fr.slots ol s.heap holw hnd]
    by_cases h1 : s.frames.length = 1
    · rw [if_pos (by omega : s.frames.length - 1 = 0), if_pos h1]
      rcases hlast : stk.getLast? with _ | v
      · exact absurd (List.getLast?_eq_none_iff.mp hlast) (hscript h1)
      · rfl
    · rw [if_neg (by omega : ¬ s.frames.length - 1 = 0), if_neg h1]
      rw [List.take_append_of_le_length hbase]
  · have hsplit := List.takeWhile_append_dropWhile
      (fun p => decide (fr.slots ≤ p.2)) ol
    have hmem : p ∈ ol.takeWhile (fun p => decide (fr.slots ≤ p.2)) ∨
        p ∈ ol.dropWhile (fun p => decide (fr.slots ≤ p.2)) := by
      rw [← List.mem_append, hsplit]; exact hp
    rcases hmem with h | h
    · have := List.mem_takeWhile_imp h
      simp at this
      omega
    · exact List.mem_map_of_mem Prod.fst h

/-- C8 (witness): the return semantics at the concrete state `sC8w` — the
upvalue at slot 2 (the frame's base) is closed over the value 12, the one at
slot 0 stays open, the frame is popped, and the stack is truncated to the
base with the return value 13 pushed. -/
theorem C8_witness :
    step sC8w = .ok { sC8w with
      heap := [.function 0 0 ⟨[36], [], []⟩ none, .closure 0 [],
               .upvalue (.closedVal (.num 12)), .upvalue (.stackSlot 0),
               .str "init"],
      openUpvalues := [3], frames := [⟨1, 0, 0⟩],
      stack := [.num 10, .num 11, .num 13] } := by
  have h := (C8_return_semantics sC8w ⟨1, 0, 2⟩ 0 0 0 [] ⟨[36], [], []⟩ none
    [.num 10, .num 11, .num 12] (.num 13) [(2, 2), (3, 0)]
    rfl rfl rfl rfl rfl (by decide) rfl (by decide) (by decide) (by decide)
    (by decide)).1
  exact h

theorem slots_emitB (st : CompilerSt) (b : Nat) :
    (emitB st b).innermostLoopStart = st.innermostLoopStart ∧
    (emitB st b).innermostLoopScopeDepth = st.innermostLoopScopeDepth :=
  ⟨rfl, rfl⟩

theorem slots_cError (st : CompilerSt) (e : CompErr) :
    (cError st e).innermostLoopStart = st.innermostLoopStart ∧
    (cError st e).innermostLoopScopeDepth = st.innermostLoopScopeDepth := by
  unfold cError; split <;> exact ⟨rfl, rfl⟩

theorem slots_emitLoop (st : CompilerSt) (l : Int) :
    (emitLoop st l).innermostLoopStart = st.innermostLoopStart ∧
    (emitLoop st l).innermostLoopScopeDepth = st.innermostLoopScopeDepth := by
  simp only [emitLoop, slots_emitB, slots_cError]
  split <;> simp [slots_emitB, slots_cError]

theorem slots_emitJump (st : CompilerSt) (i : Nat) :
    (emitJump st i).1.innermostLoopStart = st.innermostLoopStart ∧
    (emitJump st i).1.innermostLoopScopeDepth = st.innermostLoopScopeDepth :=
  ⟨rfl, rfl⟩

theorem slots_patchJump (st : CompilerSt) (o : Nat) :
    (patchJump st o).innermostLoopStart = st.innermostLoopStart ∧
    (patchJump st o).innermostLoopScopeDepth = st.innermostLoopScopeDepth := by
  simp only [patchJump]
  split <;> simp [slots_cError]

theorem slots_endScopeLoop : ∀ (n : Nat) (st : CompilerSt),
    (endScopeLoop n st).innermostLoopStart = st.innermostLoopStart ∧
    (endScopeLoop n st).innermostLoopScopeDepth = st.innermostLoopScopeDepth := by
  intro n
  induction n with
  | zero => exact fun st => ⟨rfl, rfl⟩
  | succ n ih =>
      intro st
      simp only [endScopeLoop]
      split
      · split
        · exact (ih _)
        · exact ⟨rfl, rfl⟩
      · exact ⟨rfl, rfl⟩

theorem slots_endScope (st : CompilerSt) :
    (endScope st).innermostLoopStart = st.innermostLoopStart ∧
    (endScope st).innermostLoopScopeDepth = st.innermostLoopScopeDepth := by
  simp only [endScope]
  exact slots_endScopeLoop _ _

theorem slots_makeConstantC (st : CompilerSt) :
    (makeConstantC st).1.innermostLoopStart = st.innermostLoopStart ∧
    (makeConstantC st).1.innermostLoopScopeDepth = st.innermostLoopScopeDepth := by
  simp only [makeConstantC]
  split <;> simp [slots_cError]

theorem slots_identifierConstantC (st : CompilerSt) (n : String) :
    (identifierConstantC st n).1.innermostLoopStart = st.innermostLoopStart ∧
    (identifierConstantC st n).1.innermostLoopScopeDepth
      = st.innermostLoopScopeDepth := by
  simp only [identifierConstantC]
  split
  · exact ⟨rfl, rfl⟩
  · simp [slots_makeConstantC]

theorem slots_compileExpr (st : CompilerSt) (e : CExpr) :
    (compileExpr st e).innermostLoopStart = st.innermostLoopStart ∧
    (compileExpr st e).innermostLoopScopeDepth = st.innermostLoopScopeDepth := by
  cases e <;> simp [compileExpr, slots_emitB, slots_makeConstantC]

theorem slots_declareVarScan (n : String) : ∀ (l : List (String × Int))
    (st : CompilerSt),
    (declareVarScan st n l).innermostLoopStart = st.innermostLoopStart ∧
    (declareVarScan st n l).innermostLoopScopeDepth
      = st.innermostLoopScopeDepth := by
  intro l
  induction l with
  | nil => exact fun st => ⟨rfl, rfl⟩
  | cons x xs ih =>
      intro st
      simp only [declareVarScan]
      split
      · exact ⟨rfl, rfl⟩
      · rcases ih (if x.1 = n then cError st .alreadyVariableInThisScope else st)
          with ⟨h1, h2⟩
        rw [h1, h2]
        split <;> simp [slots_cError]

theorem slots_addLocal (st : CompilerSt) (n : String) :
    (addLocal st n).innermostLoopStart = st.innermostLoopStart ∧
    (addLocal st n).innermostLoopScopeDepth = st.innermostLoopScopeDepth := by
  simp only [addLocal]
  split <;> simp [slots_cError]

theorem slots_declareVariable (st : CompilerSt) (n : String) :
    (declareVariable st n).innermostLoopStart = st.innermostLoopStart ∧
    (declareVariable st n).innermostLoopScopeDepth
      = st.innermostLoopScopeDepth := by
  simp only [declareVariable]
  split
  · exact ⟨rfl, rfl⟩
  · rcases slots_addLocal (declareVarScan st n st.locals.reverse) n with ⟨h1, h2⟩
    rw [h1, h2]
    exact slots_declareVarScan n _ st

theorem slots_defineVariable (st : CompilerSt) (g : Nat) :
    (defineVariable st g).innermostLoopStart = st.innermostLoopStart ∧
    (defineVariable st g).innermostLoopScopeDepth
      = st.innermostLoopScopeDepth := by
  simp only [defineVariable]
  split
  · split <;> exact ⟨rfl, rfl⟩
  · simp [slots_emitB]

theorem slots_compileVarDecl (st : CompilerSt) (n : String) (e : CExpr) :
    (compileVarDecl st n e).innermostLoopStart = st.innermostLoopStart ∧
    (compileVarDecl st n e).innermostLoopScopeDepth
      = st.innermostLoopScopeDepth := by
  simp only [compileVarDecl]
  split
  · rcases slots_defineVariable (compileExpr (declareVariable st n) e) 0
      with ⟨h1, h2⟩
    rw [h1, h2]
    rcases slots_compileExpr (declareVariable st n) e with ⟨h3, h4⟩
    rw [h3, h4]
    exact slots_declareVariable st n
  · rcases hid : identifierConstantC (declareVariable st n) n with ⟨st2, g⟩
    have hslots := slots_identifierConstantC (declareVariable st n) n
    rw [hid] at hslots
    simp only []
    rcases slots_defineVariable (compileExpr st2 e) g with ⟨h1, h2⟩
    rw [h1, h2]
    rcases slots_compileExpr st2 e with ⟨h3, h4⟩
    rw [h3, h4]
    rcases hslots with ⟨h5, h6⟩
    rw [h5, h6]
    exact slots_declareVariable st n

theorem slots_popFold (st : CompilerSt) (l : List (String × Int)) :
    (l.foldl (fun st _ => emitB st OP_POP) st).innermostLoopStart
      = st.innermostLoopStart ∧
    (l.foldl (fun st _ => emitB st OP_POP) st).innermostLoopScopeDepth
      = st.innermostLoopScopeDepth := by
  induction l generalizing st with
  | nil => exact ⟨rfl, rfl⟩
  | cons x xs ih => simpa using ih (emitB st OP_POP)

theorem slots_compileContinue (st : CompilerSt) :
    (compileContinue st).innermostLoopStart = st.innermostLoopStart ∧
    (compileContinue st).innermostLoopScopeDepth
      = st.innermostLoopScopeDepth := by
  simp only [compileContinue]
  split
  · rcases slots_emitLoop _ _ with ⟨h1, h2⟩
    rw [h1, h2]
    rcases slots_popFold (cError st .continueOutsideLoop) _ with ⟨h3, h4⟩
    rw [h3, h4]
    rcases slots_cError st .continueOutsideLoop with ⟨h5, h6⟩
    rw [h5, h6]
    exact ⟨rfl, rfl⟩
  · rcases slots_emitLoop _ _ with ⟨h1, h2⟩
    rw [h1, h2]
    exact slots_popFold st _

theorem slots_compileStmt : ∀ (stmt : CStmt) (st : CompilerSt),
    (compileStmt st stmt).innermostLoopStart = st.innermostLoopStart ∧
    (compileStmt st stmt).innermostLoopScopeDepth
      = st.innermostLoopScopeDepth := by
  intro stmt
  induction stmt with
  | sprint e =>
      intro st
      simp only [compileStmt]
      rcases slots_emitB (compileExpr st e) OP_PRINT with ⟨h1, h2⟩
      rw [h1, h2]
      exact slots_compileExpr st e
  | sexpr e =>
      intro st
      simp only [compileStmt]
      rcases slots_emitB (compileExpr st e) OP_POP with ⟨h1, h2⟩
      rw [h1, h2]
      exact slots_compileExpr st e
  | svar n e => exact fun st => slots_compileVarDecl st n e
  | swhile cond body ih =>
      intro st
      simp only [compileStmt]
      rcases hj : emitJump (compileExpr st cond) OP_JUMP_IF_FALSE with ⟨st2, j⟩
      have hj2 := slots_emitJump (compileExpr st cond) OP_JUMP_IF_FALSE
      rw [hj] at hj2
      simp only []
      rcases slots_emitB (patchJump (emitLoop
        (compileStmt (emitB st2 OP_POP) body) st.code.length) j) OP_POP
        with ⟨h1, h2⟩
      rw [h1, h2]
      rcases slots_patchJump (emitLoop (compileStmt (emitB st2 OP_POP) body)
        st.code.length) j with ⟨h3, h4⟩
      rw [h3, h4]
      rcases slots_emitLoop (compileStmt (emitB st2 OP_POP) body)
        st.code.length with ⟨h5, h6⟩
      rw [h5, h6]
      rcases ih (emitB st2 OP_POP) with ⟨h7, h8⟩
      rw [h7, h8]
      rcases slots_emitB st2 OP_POP with ⟨h9, h10⟩
      rw [h9, h10]
      rcases hj2 with ⟨h11, h12⟩
      rw [h11, h12]
      exact slots_compileExpr st cond
  | scontinue => exact fun st => slots_compileContinue st
  | sblock body ih =>
      intro st
      simp only [compileStmt]
      rcases slots_endScope (compileStmt (beginScope st) body) with ⟨h1, h2⟩
      rw [h1, h2]
      rcases ih (beginScope st) with ⟨h3, h4⟩
      rw [h3, h4]
      exact ⟨rfl, rfl⟩
  | sseq a b iha ihb =>
      intro st
      simp only [compileStmt]
      rcases ihb (compileStmt st a) with ⟨h1, h2⟩
      rw [h1, h2]
      exact iha st
  | sfor ini cond inc body ih =>
      intro st
      simp only [compileStmt]
      rcases slots_endScope _ with ⟨h1, h2⟩
      rw [h1, h2]
      constructor
      · cases ini with
        | none => rfl
        | some p =>
            obtain ⟨n, e⟩ := p
            exact (slots_compileVarDecl (beginScope st) n e).1
      · cases ini with
        | none => rfl
        | some p =>
            obtain ⟨n, e⟩ := p
            exact (slots_compileVarDecl (beginScope st) n e).2

/-- C5 (amended): `continue` is tracked for `for` loops only.  First: NO
statement changes the two module-level loop-tracking slots net — in
particular `whileStatement` never writes them, and `forStatement` restores
the surrounding values on exit — so the innermost tracked loop a `continue`
targets is always a `for` loop (and `continue` with no enclosing `for` is
the compile error `C5_counterexample` exhibits, even inside a while loop).
Second, concretely: compiling `for (; true; ) { var x = nil; continue; }`
succeeds with bytecode `[OP_TRUE, OP_JUMP_IF_FALSE 0 10, OP_POP, OP_NIL,
OP_POP, OP_LOOP 0 10, OP_POP, OP_LOOP 0 14, OP_POP]` — the `continue` at
offsets 6..9 emits one `OP_POP` for the local `x` (whose depth 2 exceeds the
loop's scope depth 1) and an `OP_LOOP` whose operand 10 jumps from 10 back
to offset 0, the for loop's recorded `innermostLoopStart`. -/
theorem C5_continue_targets_for_loops :
    (∀ (stmt : CStmt) (st : CompilerSt),
      (compileStmt st stmt).innermostLoopStart = st.innermostLoopStart ∧
      (compileStmt st stmt).innermostLoopScopeDepth
        = st.innermostLoopScopeDepth) ∧
    compileStmt initCompilerSt progForContinue =
      { code := [2, 27, 0, 10, 4, 1, 4, 28, 0, 10, 4, 28, 0, 14, 4],
        constants := 0, stringConstants := [], locals := [("", 0)],
        scopeDepth := 0, innermostLoopStart := -1,
        innermostLoopScopeDepth := 0, panicMode := false, hadError := false,
        errors := [] } :=
  ⟨slots_compileStmt, rfl⟩

end Terablu
